import Mathlib

/-!
# NVMe-over-Fabrics connector (pkg/nvmf/fabrics.go)

A shallow embedding of the attach/detach protocol of `fabrics.go`.

The external world is explicit state:

* the bookkeeping tree under `RUN_NVMF` is a map from the path of a subsystem
  directory below `RUN_NVMF` (the NQN) to the list of marker file names it
  holds (`none`: the directory does not exist).  The model does not relate a
  directory to its parent or its children, and does not interpret `.` inside
  a name.  A directory has no entry with the empty name: the empty marker
  name, the encoding of an empty host identity, makes the marker path the
  directory itself, which `World.remove` follows;
* the kernel controller table under `SYS_NVMF` is the list of controller
  instances that `ioutil.ReadDir` returns (`none`: the listing fails), each
  with what opening and reading its attribute files yields and whether writing
  to its `delete_controller` file succeeds;
* every call that leaves the process (opening or writing the fabric control
  file, polling for the device path, a delete request) is appended to a trace.

`os.Remove` and `os.RemoveAll`, whose errors the source ignores, act on the
tree deterministically.  Calls whose errors the source branches on
(`os.OpenFile`, the write helper, `ioutil.ReadDir`, `os.MkdirAll`,
`os.Create`, the poller) take their outcome from the world or from an
environment record.  A Go run-time panic is an explicit result.
-/

namespace Nvmf

/-! ## Go strings -/

/-- UTF-8 encoding of one code point, as the bytes Go stores in a string. -/
def utf8Char (c : Char) : List Nat :=
  let v := c.toNat
  if v < 128 then [v]
  else if v < 2048 then [192 + v / 64, 128 + v % 64]
  else if v < 65536 then [224 + v / 4096, 128 + v / 64 % 64, 128 + v % 64]
  else [240 + v / 262144, 128 + v / 4096 % 64, 128 + v / 64 % 64, 128 + v % 64]

/-- The bytes of a Go string. -/
def utf8Bytes (s : String) : List Nat :=
  s.data.flatMap utf8Char

/-- Go `len(s)`: the number of bytes of the string. -/
def len (s : String) : Nat :=
  (utf8Bytes s).length

/-- Go `strings.ToLower`.  Only the ASCII range is mapped: no code point
outside it lower-cases to a letter of `tcp` or `rdma`, so the comparisons of
`Connect` are unaffected. -/
def toLower (s : String) : String :=
  String.mk (s.data.map Char.toLower)

/-- The alphabet of `base64.StdEncoding`. -/
def b64Alphabet : List Char :=
  "ABCDEFGHIJKLMNOPQRSTUVWXYZabcdefghijklmnopqrstuvwxyz0123456789+/".data

/-- The character of a 6-bit value. -/
def b64Char (n : Nat) : Char :=
  b64Alphabet.getD n '='

/-- Base 64 encoding of a byte sequence with `=` padding. -/
def b64Bytes : List Nat → List Char
  | [] => []
  | [a] => [b64Char (a / 4), b64Char (a % 4 * 16), '=', '=']
  | [a, b] => [b64Char (a / 4), b64Char (a % 4 * 16 + b / 16), b64Char (b % 16 * 4), '=']
  | a :: b :: c :: rest =>
    b64Char (a / 4) :: b64Char (a % 4 * 16 + b / 16) :: b64Char (b % 16 * 4 + c / 64)
      :: b64Char (c % 64) :: b64Bytes rest

/-- The call `b64.StdEncoding.EncodeToString([]byte(s))`. -/
def b64Encode (s : String) : String :=
  String.mk (b64Bytes (utf8Bytes s))

/-! ## Data model -/

/-- Constants of the package that are declared outside `fabrics.go`. -/
structure Consts where
  NVMF_NQN_SIZE : Nat
  EINVAL : Int
  ENOENT : Int

/-- The `Connector` record.  The two counters are `int32` in the source. -/
structure Connector where
  VolumeID : String
  DeviceUUID : String
  TargetNqn : String
  TargetAddr : String
  TargetPort : String
  Transport : String
  HostNqn : String
  RetryCount : Int
  CheckInterval : Int
deriving DecidableEq, Repr

/-- What `os.Open` followed by `utils.ReadLinesFromFile` yields on an
attribute file. -/
inductive FileRead where
  | openFail
  | readFail
  | lines (ls : List String)
deriving DecidableEq, Repr

/-- One entry of the `SYS_NVMF` listing. -/
structure Controller where
  name : String
  subsysnqn : FileRead
  hostnqn : FileRead
  deleteOk : Bool
deriving DecidableEq, Repr

/-- Go errors returned by `Connect` and `Disconnect`. -/
inductive Err where
  | invalidRetry (retryCount checkInterval : Int)
  | badTransport
  | fabric (msg : String)
  | poller (msg : String)
  | bookkeeping (msg : String)
  | disconnectFailed (nqn : String)
deriving DecidableEq, Repr

/-- Go run-time panics the code can raise. -/
inductive Panic where
  | nilDereference
  | indexOutOfRange
deriving DecidableEq, Repr

/-- Calls that leave the process. -/
inductive Event where
  | fabricOpen
  | fabricWrite (arg : String)
  | poll (path : String) (retries interval : Int) (transport : String)
  | deleteRequest (ctrl : String)
deriving DecidableEq, Repr

/-- The state outside the process. -/
structure World where
  run : String → Option (List String)
  sys : Option (List Controller)
  trace : List Event

/-- Outcomes of the calls of `Connect` that the kernel or the file system
decides: the open and the write of the fabric control file, the controllers
the kernel lists after a successful write, `os.MkdirAll` and `os.Create`
(`none`: no error; for an empty `HostNqn` the path handed to `os.Create` is
the directory and the call fails).  `waitForPathToExist` is declared in
another file of the package; it is taken as a function of its four arguments
that returns the Go pair `(bool, error)`. -/
structure Env where
  fabricOpenErr : Option Err
  fabricWriteErr : Option Err
  attached : List Controller
  waitForPathToExist : String → Int → Int → String → Bool × Option Err
  mkdirErr : Option Err
  createErr : Option Err

/-! ## Bookkeeping tree -/

/-- The call `os.Remove(RUN_NVMF/nqn/file)` with its error ignored: the marker
file, when it exists, is unlinked.  With the empty file name (the encoding of
an empty host identity) the path is `RUN_NVMF/nqn/`, the subsystem directory
itself, which `os.Remove` removes when it is empty and leaves when it is
not. -/
def World.remove (w : World) (nqn file : String) : World :=
  { w with run := fun d =>
      if d = nqn then
        match w.run d with
        | some [] => if file = "" then none else some []
        | r => r.map (fun fs => fs.filter (fun f => f ≠ file))
      else w.run d }

/-- The call `os.RemoveAll(RUN_NVMF/nqn)` with its error ignored. -/
def World.removeAll (w : World) (nqn : String) : World :=
  { w with run := fun d => if d = nqn then none else w.run d }

/-- A successful `os.MkdirAll(RUN_NVMF/nqn, 0750)`. -/
def World.mkdirAll (w : World) (nqn : String) : World :=
  { w with run := fun d =>
      if d = nqn then some ((w.run d).getD []) else w.run d }

/-- A successful `os.Create(RUN_NVMF/nqn/file)`. -/
def World.create (w : World) (nqn file : String) : World :=
  { w with run := fun d =>
      if d = nqn then (w.run d).map (fun fs => if file ∈ fs then fs else fs ++ [file])
      else w.run d }

/-- The marker of `(nqn, hostnqn)` exists. -/
def World.hasMarker (w : World) (nqn hostnqn : String) : Bool :=
  match w.run nqn with
  | none => false
  | some fs => fs.contains (b64Encode hostnqn)

/-- Append an event to the trace. -/
def World.log (w : World) (e : Event) : World :=
  { w with trace := w.trace ++ [e] }

/-! ## Kernel calls -/

/-- The function `_connect`: open the fabric control file and write the
argument string.  The lines read back are only logged.  After a successful
write the kernel lists the controllers of the new session. -/
def _connect (env : Env) (argStr : String) (w : World) : World × Option Err :=
  let w1 := w.log Event.fabricOpen
  match env.fabricOpenErr with
  | some err => (w1, some err)
  | none =>
    let w2 := w1.log (Event.fabricWrite argStr)
    match env.fabricWriteErr with
    | some err => (w2, some err)
    | none => ({ w2 with sys := some (w2.sys.getD [] ++ env.attached) }, none)

/-- The function `_disconnect` on the `delete_controller` file of a
controller: on success the kernel removes the instance. -/
def _disconnect (ctrl : Controller) (w : World) : World × Bool :=
  let w1 := w.log (Event.deleteRequest ctrl.name)
  if ctrl.deleteOk then
    ({ w1 with sys := w1.sys.map (fun ds => ds.filter (fun d => d.name ≠ ctrl.name)) }, true)
  else (w1, false)

/-- The function `disconnectSubsysWithHostNqn`.  When `os.Open` on the
`subsysnqn` file fails, the log call evaluates `file.Name()` on a nil file,
which panics; `lines[0]` panics when no line was read. -/
def disconnectSubsysWithHostNqn (nqn hostnqn : String) (ctrl : Controller) (w : World) :
    World × Except Panic Bool :=
  match ctrl.subsysnqn with
  | .openFail => (w, .error .nilDereference)
  | .readFail => (w, .ok false)
  | .lines [] => (w, .error .indexOutOfRange)
  | .lines (l0 :: _) =>
    if l0 ≠ nqn then (w, .ok false)
    else
      match ctrl.hostnqn with
      | .openFail => (w, .ok false)
      | .readFail => (w, .ok false)
      | .lines [] => (w, .error .indexOutOfRange)
      | .lines (h0 :: _) =>
        if h0 ≠ hostnqn then (w, .ok false)
        else
          let r := _disconnect ctrl w
          (r.1, .ok r.2)

/-- The function `disconnectSubsys`, which matches on the subsystem name
alone. -/
def disconnectSubsys (nqn : String) (ctrl : Controller) (w : World) :
    World × Except Panic Bool :=
  match ctrl.subsysnqn with
  | .openFail => (w, .error .nilDereference)
  | .readFail => (w, .ok false)
  | .lines [] => (w, .error .indexOutOfRange)
  | .lines (l0 :: _) =>
    if l0 ≠ nqn then (w, .ok false)
    else
      let r := _disconnect ctrl w
      (r.1, .ok r.2)

/-- A `for _, device := range devices` loop that counts the instances for
which `f` returns true; a panic ends it. -/
def scan (f : Controller → World → World × Except Panic Bool) :
    List Controller → World → Int → World × Except Panic Int
  | [], w, ret => (w, .ok ret)
  | device :: devices, w, ret =>
    match f device w with
    | (w1, .error p) => (w1, .error p)
    | (w1, .ok true) => scan f devices w1 (ret + 1)
    | (w1, .ok false) => scan f devices w1 ret

/-- The function `disconnectByNqn`. -/
def disconnectByNqn (K : Consts) (nqn hostnqn : String) (w : World) :
    World × Except Panic Int :=
  if len nqn > K.NVMF_NQN_SIZE then (w, .ok (-K.EINVAL))
  else
    let w1 := w.remove nqn (b64Encode hostnqn)
    match w1.sys with
    | none => (w1, .ok (-K.ENOENT))
    | some devices =>
      match scan (disconnectSubsysWithHostNqn nqn hostnqn) devices w1 0 with
      | (w2, .error p) => (w2, .error p)
      | (w2, .ok ret) =>
        match w2.run nqn with
        | none => (w2, .ok (-K.ENOENT))
        | some hostnqns =>
          if hostnqns.length ≤ 0 then
            if ret = 0 then
              match w2.sys with
              | none => (w2, .ok (-K.ENOENT))
              | some devices2 =>
                match scan (disconnectSubsys nqn) devices2 w2 ret with
                | (w3, .error p) => (w3, .error p)
                | (w3, .ok ret1) => (w3.removeAll nqn, .ok ret1)
            else (w2.removeAll nqn, .ok ret)
          else (w2, .ok ret)

/-! ## Connect and Disconnect -/

/-- What a call of `Connect` leaves behind: the world, the receiver (which
`Connect` updates in place) and the returned pair, or a panic. -/
structure ConnectOut where
  world : World
  connector : Connector
  result : Except Panic (String × Option Err)

/-- The rollback block of `Connect`: tear down by subsystem, log a negative
result, return the original error. -/
def rollback (K : Consts) (c : Connector) (err : Option Err) (w : World) : ConnectOut :=
  match disconnectByNqn K c.TargetNqn c.HostNqn w with
  | (w1, .error p) => ⟨w1, c, .error p⟩
  | (w1, .ok _) => ⟨w1, c, .ok ("", err)⟩

/-- The first two statements of `Connect`: the defaults of the counters. -/
def normalize (c : Connector) : Connector :=
  let c1 := if c.RetryCount = 0 then { c with RetryCount := 10 } else c
  if c1.CheckInterval = 0 then { c1 with CheckInterval := 1 } else c1

/-- The argument string written to the fabric control file. -/
def baseString (c : Connector) : String :=
  "nqn=" ++ c.TargetNqn ++ ",transport=" ++ c.Transport ++ ",traddr=" ++ c.TargetAddr
    ++ ",trsvcid=" ++ c.TargetPort ++ ",hostnqn=" ++ c.HostNqn

/-- The expected device path. -/
def devicePath (c : Connector) : String :=
  "/dev/disk/by-id/nvme-uuid" ++ "." ++ c.DeviceUUID

/-- The attempt count handed to the poller: `int(c.RetryCount / c.CheckInterval)`,
a truncating `int32` division. -/
def retries (c : Connector) : Int :=
  Int.tdiv c.RetryCount c.CheckInterval

/-- The method `Connect`. -/
def Connect (K : Consts) (env : Env) (c0 : Connector) (w : World) : ConnectOut :=
  let c := normalize c0
  if c.RetryCount < 0 ∨ c.CheckInterval < 0 then
    ⟨w, c, .ok ("", some (.invalidRetry c.RetryCount c.CheckInterval))⟩
  else if toLower c.Transport ≠ "tcp" ∧ toLower c.Transport ≠ "rdma" then
    ⟨w, c, .ok ("", some .badTransport)⟩
  else
    match _connect env (baseString c) w with
    | (w1, some err) => ⟨w1, c, .ok ("", some err)⟩
    | (w1, none) =>
      let w2 := w1.log (Event.poll (devicePath c) (retries c) c.CheckInterval c.Transport)
      match env.waitForPathToExist (devicePath c) (retries c) c.CheckInterval c.Transport with
      | (false, err) => rollback K c err w2
      | (true, _) =>
        match env.mkdirErr with
        | some err => rollback K c (some err) w2
        | none =>
          let w3 := w2.mkdirAll c.TargetNqn
          match env.createErr with
          | some err => rollback K c (some err) w3
          | none => ⟨w3.create c.TargetNqn (b64Encode c.HostNqn), c, .ok (devicePath c, none)⟩

/-- The method `Disconnect`. -/
def Disconnect (K : Consts) (c : Connector) (w : World) : World × Except Panic (Option Err) :=
  match disconnectByNqn K c.TargetNqn c.HostNqn w with
  | (w1, .error p) => (w1, .error p)
  | (w1, .ok ret) =>
    if ret < 0 then (w1, .ok (some (.disconnectFailed c.TargetNqn)))
    else (w1, .ok none)

/-! ## Observations used in the statements -/

/-- The subsystem-name an instance exposes: the first line of its
`subsysnqn` attribute, when the file opens, reads and has a line. -/
def Controller.subsysName (d : Controller) : Option String :=
  match d.subsysnqn with
  | .lines (l0 :: _) => some l0
  | _ => none

/-- The host-identity an instance exposes: the first line of its `hostnqn`
attribute, when the file opens, reads and has a line. -/
def Controller.hostName (d : Controller) : Option String :=
  match d.hostnqn with
  | .lines (h0 :: _) => some h0
  | _ => none

/-- The attribute files of the instance can be scanned without a panic: the
`subsysnqn` file opens, and no attribute file reads as zero lines. -/
def Controller.scannable (d : Controller) : Bool :=
  d.subsysnqn != .openFail && d.subsysnqn != .lines [] && d.hostnqn != .lines []

/-- The host-scoped match of `disconnectSubsysWithHostNqn`. -/
def Controller.matchesHost (nqn hostnqn : String) (d : Controller) : Bool :=
  d.subsysName == some nqn && d.hostName == some hostnqn

/-- The subsystem-only match of `disconnectSubsys`. -/
def Controller.matchesSubsys (nqn : String) (d : Controller) : Bool :=
  d.subsysName == some nqn

/-- The delete requests for the instances of a listing that satisfy `m`, in
listing order. -/
def requestsFor (m : Controller → Bool) (ds : List Controller) : List Event :=
  (ds.filter m).map (fun d => Event.deleteRequest d.name)

/-- The events a call appended to the trace. -/
def newEvents (before after : World) : List Event :=
  after.trace.drop before.trace.length

/-- The validation of `Connect` passes on the record as the caller built it:
the transport lower-cases to `tcp` or `rdma` and neither counter is negative. -/
def Connector.valid (c : Connector) : Prop :=
  (toLower c.Transport = "tcp" ∨ toLower c.Transport = "rdma")
    ∧ 0 ≤ c.RetryCount ∧ 0 ≤ c.CheckInterval

instance (c : Connector) : Decidable c.valid := by
  unfold Connector.valid
  infer_instance

/-- The world once the fabric control file was opened and written and the
poller was called, for a normalized connector. -/
def polled (env : Env) (c : Connector) (w : World) : World :=
  World.log
    { (w.log Event.fabricOpen).log (Event.fabricWrite (baseString c)) with
      sys := some (w.sys.getD [] ++ env.attached) }
    (Event.poll (devicePath c) (retries c) c.CheckInterval c.Transport)

/-- The events of the attach phase of `Connect` for a normalized connector:
opening the fabric control file, the write when the open succeeded, the call
of the poller when the write succeeded. -/
def attachEvents (env : Env) (c : Connector) : List Event :=
  match env.fabricOpenErr with
  | some _ => [Event.fabricOpen]
  | none =>
    match env.fabricWriteErr with
    | some _ => [Event.fabricOpen, Event.fabricWrite (baseString c)]
    | none => [Event.fabricOpen, Event.fabricWrite (baseString c),
        Event.poll (devicePath c) (retries c) c.CheckInterval c.Transport]

/-- The event is a delete request. -/
def Event.isDelete : Event → Bool
  | .deleteRequest _ => true
  | _ => false

/-! ## Concrete inputs -/

/-- The maximum NQN length the specification gives, with the Linux values of
the two error numbers. -/
def sampleConsts : Consts := ⟨256, 22, 2⟩

/-- A connector for subsystem `nqn` and host `hostnqn` with both counters
left at zero. -/
def sampleConnector (nqn hostnqn : String) : Connector :=
  { VolumeID := "vol-1", DeviceUUID := "0a1b", TargetNqn := nqn, TargetAddr := "10.0.0.7",
    TargetPort := "4420", Transport := "TCP", HostNqn := hostnqn,
    RetryCount := 0, CheckInterval := 0 }

/-- A world with no bookkeeping directory, an empty controller table and an
empty trace. -/
def emptyWorld : World :=
  { run := fun _ => none, sys := some [], trace := [] }

/-- An environment in which every call succeeds and the device path
appears. -/
def goodEnv : Env :=
  { fabricOpenErr := none, fabricWriteErr := none, attached := [],
    waitForPathToExist := fun _ _ _ _ => (true, none), mkdirErr := none, createErr := none }

/-- A subsystem name of 301 bytes, more than the maximum, made of two path
components of 200 and 100 bytes, each short enough for a directory name. -/
def longNqn : String :=
  String.mk (List.replicate 200 'a' ++ '/' :: List.replicate 100 'b')

/-- A world whose bookkeeping tree holds the marker of `(nqn, hostnqn)` and
nothing else, with an empty controller table. -/
def markedWorld (nqn hostnqn : String) : World :=
  { run := fun d => if d = nqn then some [b64Encode hostnqn] else none, sys := some [],
    trace := [] }

/-- An environment in which the attach succeeds and the poller reports, with
an error, that the device path never appeared. -/
def timeoutEnv : Env :=
  { goodEnv with waitForPathToExist := fun _ _ _ _ => (false, some (Err.poller "timeout")) }

/-- A controller instance that exposes both attributes and accepts a delete
request. -/
def ctrl (name nqn hostnqn : String) : Controller :=
  { name := name, subsysnqn := .lines [nqn], hostnqn := .lines [hostnqn], deleteOk := true }

/-- A controller instance of a kernel that has no `hostnqn` attribute. -/
def ctrlNoHost (name nqn : String) : Controller :=
  { name := name, subsysnqn := .lines [nqn], hostnqn := .openFail, deleteOk := true }

/-- A controller instance whose `subsysnqn` file cannot be opened. -/
def ctrlUnopenable (name : String) : Controller :=
  { name := name, subsysnqn := .openFail, hostnqn := .openFail, deleteOk := true }

/-- A world with the given bookkeeping directories and controller listing and
an empty trace. -/
def worldOf (dirs : List (String × List String)) (ctrls : List Controller) : World :=
  { run := fun d => dirs.lookup d, sys := some ctrls, trace := [] }

/-- The instances of the kernel table (none when the listing fails). -/
def World.ctrls (w : World) : List Controller :=
  w.sys.getD []

/-- What a scan step decides for an instance, before any side effect. -/
inductive Verdict where
  | panic (p : Panic)
  | skip
  | delete
deriving DecidableEq, Repr

/-- The decision of `disconnectSubsys`. -/
def verdictSubsys (nqn : String) (d : Controller) : Verdict :=
  match d.subsysnqn with
  | .openFail => .panic .nilDereference
  | .readFail => .skip
  | .lines [] => .panic .indexOutOfRange
  | .lines (l0 :: _) => if l0 ≠ nqn then .skip else .delete

/-- The decision of `disconnectSubsysWithHostNqn`. -/
def verdictHost (nqn hostnqn : String) (d : Controller) : Verdict :=
  match d.subsysnqn with
  | .openFail => .panic .nilDereference
  | .readFail => .skip
  | .lines [] => .panic .indexOutOfRange
  | .lines (l0 :: _) =>
    if l0 ≠ nqn then .skip
    else
      match d.hostnqn with
      | .openFail => .skip
      | .readFail => .skip
      | .lines [] => .panic .indexOutOfRange
      | .lines (h0 :: _) => if h0 ≠ hostnqn then .skip else .delete

/-- A scan step that acts on a decision. -/
def probe (v : Controller → Verdict) (d : Controller) (w : World) :
    World × Except Panic Bool :=
  match v d with
  | .panic p => (w, .error p)
  | .skip => (w, .ok false)
  | .delete => ((_disconnect d w).1, .ok (_disconnect d w).2)

/-- The decision is to delete. -/
def Verdict.isDelete : Verdict → Bool
  | .delete => true
  | _ => false

/-- The decision is a panic. -/
def Verdict.isPanic : Verdict → Bool
  | .panic _ => true
  | _ => false

/-- The instances of `cs` that remain after the instances of `ds` that
satisfy `m` and whose delete succeeds have been removed by name. -/
def survivors (m : Controller → Bool) (ds cs : List Controller) : List Controller :=
  cs.filter (fun c => !(ds.filter (fun d => m d && d.deleteOk)).any (fun d => d.name == c.name))

/-- The number of instances of `ds` that satisfy `m` and whose delete
succeeds. -/
def removedCount (m : Controller → Bool) (ds : List Controller) : Int :=
  ((ds.filter (fun d => m d && d.deleteOk)).length : Int)

/-- The world after a delete request for every instance of `ds` that
satisfies `m`. -/
def scanned (m : Controller → Bool) (ds : List Controller) (w : World) : World :=
  { run := w.run, sys := w.sys.map (survivors m ds), trace := w.trace ++ requestsFor m ds }

/-- The part of a listing that a scan processes: up to the first instance on
which the step panics. -/
def processed (v : Controller → Verdict) (ds : List Controller) : List Controller :=
  ds.takeWhile (fun d => !(v d).isPanic)

/-- The panic that ends a scan, if any. -/
def firstPanic (v : Controller → Verdict) : List Controller → Option Panic
  | [] => none
  | d :: ds =>
    match v d with
    | .panic p => some p
    | _ => firstPanic v ds

/-- The 6-bit value of a character of the alphabet. -/
def b64Val (c : Char) : Nat :=
  b64Alphabet.indexOf c

/-! ## Marker names -/

theorem b64Val_b64Char : ∀ n < 64, b64Val (b64Char n) = n := by decide

theorem b64Char_ne_pad : ∀ n < 64, b64Char n ≠ '=' := by decide

theorem b64Char_inj (n m : Nat) (hn : n < 64) (hm : m < 64) (h : b64Char n = b64Char m) :
    n = m := by
  have := congrArg b64Val h
  rwa [b64Val_b64Char n hn, b64Val_b64Char m hm] at this

theorem char_toNat_lt (c : Char) : c.toNat < 1114112 := by
  have := c.valid
  unfold UInt32.isValidChar Nat.isValidChar at this
  unfold Char.toNat
  omega

theorem char_eq_of_toNat (c d : Char) (h : c.toNat = d.toNat) : c = d := by
  apply Char.eq_of_val_eq
  apply UInt32.eq_of_val_eq
  apply Fin.ext
  exact h

theorem utf8Char_lt (c : Char) : ∀ x ∈ utf8Char c, x < 256 := by
  have hc := char_toNat_lt c
  intro x hx
  unfold utf8Char at hx
  simp only [] at hx
  split at hx
  · simp at hx; omega
  split at hx
  · simp at hx; omega
  split at hx
  · simp at hx; omega
  · simp at hx; omega

theorem utf8Char_append_inj (c d : Char) (r1 r2 : List Nat)
    (h : utf8Char c ++ r1 = utf8Char d ++ r2) : c = d ∧ r1 = r2 := by
  unfold utf8Char at h
  simp only [] at h
  split at h <;> split at h <;> (try split at h) <;> (try split at h) <;> (try split at h)
    <;> (try split at h)
    <;> simp only [List.cons_append, List.nil_append, List.cons.injEq] at h
    <;> first
      | (exfalso; omega)
      | exact ⟨char_eq_of_toNat c d (by omega), by simp [h]⟩
theorem utf8Char_ne_nil (c : Char) : utf8Char c ≠ [] := by
  unfold utf8Char
  simp only []
  split
  · simp
  split
  · simp
  split <;> simp

theorem flatMap_utf8Char_inj : ∀ cs ds : List Char,
    cs.flatMap utf8Char = ds.flatMap utf8Char → cs = ds
  | [], [], _ => rfl
  | [], d :: ds, h => by
    rw [List.flatMap_nil, List.flatMap_cons] at h
    have := utf8Char_ne_nil d
    cases hd : utf8Char d with
    | nil => exact absurd hd this
    | cons x xs => rw [hd] at h; cases h
  | c :: cs, [], h => by
    rw [List.flatMap_nil, List.flatMap_cons] at h
    have := utf8Char_ne_nil c
    cases hc : utf8Char c with
    | nil => exact absurd hc this
    | cons x xs => rw [hc] at h; cases h
  | c :: cs, d :: ds, h => by
    rw [List.flatMap_cons, List.flatMap_cons] at h
    obtain ⟨h1, h2⟩ := utf8Char_append_inj c d _ _ h
    rw [h1, flatMap_utf8Char_inj cs ds h2]

theorem utf8Bytes_lt (s : String) : ∀ x ∈ utf8Bytes s, x < 256 := by
  intro x hx
  unfold utf8Bytes at hx
  rw [List.mem_flatMap] at hx
  obtain ⟨c, -, hc⟩ := hx
  exact utf8Char_lt c x hc

theorem b64Bytes_inj : ∀ xs ys : List Nat, (∀ x ∈ xs, x < 256) → (∀ y ∈ ys, y < 256) →
    b64Bytes xs = b64Bytes ys → xs = ys
  | [], [], _, _, _ => rfl
  | [], [_], _, _, h => by simp [b64Bytes] at h
  | [], [_, _], _, _, h => by simp [b64Bytes] at h
  | [], _ :: _ :: _ :: _, _, _, h => by simp [b64Bytes] at h
  | [_], [], _, _, h => by simp [b64Bytes] at h
  | [a], [a1], hx, hy, h => by
    have ha := hx a (by simp)
    have ha1 := hy a1 (by simp)
    simp only [b64Bytes, List.cons.injEq, and_true] at h
    have h1 := b64Char_inj _ _ (by omega) (by omega) h.1
    have h2 := b64Char_inj _ _ (by omega) (by omega) h.2
    have : a = a1 := by omega
    rw [this]
  | [a], [a1, b1], hx, hy, h => by
    have hb1 := hy b1 (by simp)
    simp only [b64Bytes, List.cons.injEq, and_true] at h
    exact absurd h.2.2.symm (b64Char_ne_pad _ (by omega))
  | [a], a1 :: b1 :: c1 :: r1, hx, hy, h => by
    have hc1 := hy c1 (by simp)
    simp only [b64Bytes, List.cons.injEq] at h
    exact absurd h.2.2.2.1.symm (b64Char_ne_pad _ (by omega))
  | [_, _], [], _, _, h => by simp [b64Bytes] at h
  | [a, b], [a1], hx, hy, h => by
    have hb := hx b (by simp)
    simp only [b64Bytes, List.cons.injEq, and_true] at h
    exact absurd h.2.2 (b64Char_ne_pad _ (by omega))
  | [a, b], [a1, b1], hx, hy, h => by
    have ha := hx a (by simp)
    have hb := hx b (by simp)
    have ha1 := hy a1 (by simp)
    have hb1 := hy b1 (by simp)
    simp only [b64Bytes, List.cons.injEq, and_true] at h
    have h1 := b64Char_inj _ _ (by omega) (by omega) h.1
    have h2 := b64Char_inj _ _ (by omega) (by omega) h.2.1
    have h3 := b64Char_inj _ _ (by omega) (by omega) h.2.2
    have e1 : a = a1 := by omega
    have e2 : b = b1 := by omega
    rw [e1, e2]
  | [a, b], a1 :: b1 :: c1 :: r1, hx, hy, h => by
    have hc1 := hy c1 (by simp)
    simp only [b64Bytes, List.cons.injEq] at h
    exact absurd h.2.2.2.1.symm (b64Char_ne_pad _ (by omega))
  | _ :: _ :: _ :: _, [], _, _, h => by simp [b64Bytes] at h
  | a :: b :: c :: r, [a1], hx, hy, h => by
    have hc := hx c (by simp)
    simp only [b64Bytes, List.cons.injEq] at h
    exact absurd h.2.2.2.1 (b64Char_ne_pad _ (by omega))
  | a :: b :: c :: r, [a1, b1], hx, hy, h => by
    have hc := hx c (by simp)
    simp only [b64Bytes, List.cons.injEq] at h
    exact absurd h.2.2.2.1 (b64Char_ne_pad _ (by omega))
  | a :: b :: c :: r, a1 :: b1 :: c1 :: r1, hx, hy, h => by
    have ha := hx a (by simp)
    have hb := hx b (by simp)
    have hc := hx c (by simp)
    have ha1 := hy a1 (by simp)
    have hb1 := hy b1 (by simp)
    have hc1 := hy c1 (by simp)
    simp only [b64Bytes, List.cons.injEq] at h
    have h1 := b64Char_inj _ _ (by omega) (by omega) h.1
    have h2 := b64Char_inj _ _ (by omega) (by omega) h.2.1
    have h3 := b64Char_inj _ _ (by omega) (by omega) h.2.2.1
    have h4 := b64Char_inj _ _ (by omega) (by omega) h.2.2.2.1
    have e1 : a = a1 := by omega
    have e2 : b = b1 := by omega
    have e3 : c = c1 := by omega
    have e4 := b64Bytes_inj r r1 (fun x hx1 => hx x (by simp [hx1]))
      (fun y hy1 => hy y (by simp [hy1])) h.2.2.2.2
    rw [e1, e2, e3, e4]

/-- Distinct host identities have distinct marker names. -/
theorem b64Encode_injective (s t : String) (h : b64Encode s = b64Encode t) : s = t := by
  unfold b64Encode at h
  have h1 : b64Bytes (utf8Bytes s) = b64Bytes (utf8Bytes t) := by
    injection h
  have h2 := b64Bytes_inj _ _ (utf8Bytes_lt s) (utf8Bytes_lt t) h1
  have h3 := flatMap_utf8Char_inj _ _ h2
  exact String.ext h3
/-! ## Scan steps as decisions -/

theorem disconnectSubsys_eq_probe (nqn : String) :
    disconnectSubsys nqn = probe (verdictSubsys nqn) := by
  funext d w
  unfold disconnectSubsys probe verdictSubsys
  split <;> simp
  split <;> simp

theorem disconnectSubsysWithHostNqn_eq_probe (nqn hostnqn : String) :
    disconnectSubsysWithHostNqn nqn hostnqn = probe (verdictHost nqn hostnqn) := by
  funext d w
  unfold disconnectSubsysWithHostNqn probe verdictHost
  cases d.subsysnqn with
  | openFail => rfl
  | readFail => rfl
  | lines ls =>
    cases ls with
    | nil => rfl
    | cons l0 rest =>
      by_cases h : l0 = nqn
      · cases d.hostnqn with
        | openFail => simp [h]
        | readFail => simp [h]
        | lines hs =>
          cases hs with
          | nil => simp [h]
          | cons h0 hrest => by_cases h2 : h0 = hostnqn <;> simp [h, h2]
      · simp [h]

/-! ## The scan loop -/

theorem survivors_cons_skip (m : Controller → Bool) (d : Controller) (ds cs : List Controller)
    (h : (m d && d.deleteOk) = false) : survivors m (d :: ds) cs = survivors m ds cs := by
  unfold survivors
  have hf : List.filter (fun d => m d && d.deleteOk) (d :: ds)
      = List.filter (fun d => m d && d.deleteOk) ds := by
    simp only [List.filter_cons, h, Bool.false_eq_true, if_false]
  rw [hf]

theorem survivors_cons_delete (m : Controller → Bool) (d : Controller)
    (ds cs : List Controller) (h : (m d && d.deleteOk) = true) :
    survivors m (d :: ds) cs = survivors m ds (cs.filter (fun c => c.name ≠ d.name)) := by
  unfold survivors
  have hf : List.filter (fun d => m d && d.deleteOk) (d :: ds)
      = d :: List.filter (fun d => m d && d.deleteOk) ds := by
    simp only [List.filter_cons, h, if_true]
  rw [hf, List.filter_filter]
  apply List.filter_congr
  intro c _
  by_cases hc : d.name = c.name
  · simp [hc]
  · have hc2 : ¬ c.name = d.name := fun e => hc e.symm
    simp [hc, hc2]

theorem requestsFor_cons (m : Controller → Bool) (d : Controller) (ds : List Controller) :
    requestsFor m (d :: ds)
      = (if m d then [Event.deleteRequest d.name] else []) ++ requestsFor m ds := by
  unfold requestsFor
  by_cases h : m d = true
  · rw [List.filter_cons_of_pos h]; simp [h]
  · rw [List.filter_cons_of_neg h]; simp [h]

theorem processed_cons (v : Controller → Verdict) (d : Controller) (ds : List Controller) :
    processed v (d :: ds) = if (v d).isPanic then [] else d :: processed v ds := by
  unfold processed
  by_cases h : (v d).isPanic = true
  · simp [List.takeWhile, h]
  · simp [List.takeWhile, h]

theorem scanned_nil (m : Controller → Bool) (w : World) : scanned m [] w = w := by
  cases w with
  | mk run sys trace =>
    cases sys <;> simp [scanned, requestsFor, survivors]

theorem scanned_cons_skip (m : Controller → Bool) (d : Controller) (ds : List Controller)
    (w : World) (h : m d = false) : scanned m (d :: ds) w = scanned m ds w := by
  unfold scanned
  rw [requestsFor_cons]
  have : survivors m (d :: ds) = survivors m ds := by
    funext cs; exact survivors_cons_skip m d ds cs (by simp [h])
  simp [h, this]

theorem scanned_cons_delete (m : Controller → Bool) (d : Controller) (ds : List Controller)
    (w : World) (h : m d = true) :
    scanned m (d :: ds) w = scanned m ds (_disconnect d w).1 := by
  unfold scanned
  rw [requestsFor_cons]
  cases hd : d.deleteOk with
  | true =>
    have : survivors m (d :: ds)
        = fun cs => survivors m ds (cs.filter (fun c => c.name ≠ d.name)) := by
      funext cs; exact survivors_cons_delete m d ds cs (by simp [h, hd])
    cases hs : w.sys <;> simp [h, this, _disconnect, World.log, hd, hs]
  | false =>
    have : survivors m (d :: ds) = survivors m ds := by
      funext cs; exact survivors_cons_skip m d ds cs (by simp [hd])
    simp [h, this, _disconnect, World.log, hd]

theorem removedCount_cons (m : Controller → Bool) (d : Controller) (ds : List Controller) :
    removedCount m (d :: ds)
      = (if (m d && d.deleteOk) = true then 1 else 0) + removedCount m ds := by
  unfold removedCount
  by_cases h : (m d && d.deleteOk) = true
  · simp only [List.filter_cons, h, if_true, List.length_cons]
    push_cast
    ring
  · simp only [List.filter_cons, h, if_false]
    simp

theorem removedCount_nonneg (m : Controller → Bool) (ds : List Controller) :
    0 ≤ removedCount m ds := by
  unfold removedCount
  exact Int.natCast_nonneg _

/-- The world a scan leaves: every instance before the first panic was
processed. -/
theorem scan_world (v : Controller → Verdict) :
    ∀ (ds : List Controller) (w : World) (ret : Int),
      (scan (probe v) ds w ret).1 = scanned (fun d => (v d).isDelete) (processed v ds) w := by
  intro ds
  induction ds with
  | nil => intro w ret; simp [scan, processed, scanned_nil]
  | cons d ds ih =>
    intro w ret
    rw [processed_cons]
    cases hv : v d with
    | panic p => simp [scan, probe, hv, Verdict.isPanic, scanned_nil]
    | skip =>
      have h1 : scan (probe v) (d :: ds) w ret = scan (probe v) ds w ret := by
        simp [scan, probe, hv]
      rw [h1, ih w ret]
      simp only [Verdict.isPanic, Bool.false_eq_true, if_false]
      rw [scanned_cons_skip]
      simp [hv, Verdict.isDelete]
    | delete =>
      have hm : (fun d => (v d).isDelete) d = true := by simp [hv, Verdict.isDelete]
      simp only [Verdict.isPanic, Bool.false_eq_true, if_false]
      rw [scanned_cons_delete (fun d => (v d).isDelete) d _ w hm]
      cases hok : d.deleteOk with
      | true =>
        have h1 : scan (probe v) (d :: ds) w ret
            = scan (probe v) ds (_disconnect d w).1 (ret + 1) := by
          simp [scan, probe, hv, _disconnect, hok]
        rw [h1, ih]
      | false =>
        have h1 : scan (probe v) (d :: ds) w ret
            = scan (probe v) ds (_disconnect d w).1 ret := by
          simp [scan, probe, hv, _disconnect, hok]
        rw [h1, ih]

theorem firstPanic_eq_none (v : Controller → Verdict) (ds : List Controller) :
    firstPanic v ds = none ↔ ∀ d ∈ ds, (v d).isPanic = false := by
  induction ds with
  | nil => simp [firstPanic]
  | cons d ds ih =>
    cases hv : v d <;> simp [firstPanic, hv, Verdict.isPanic, ih]

theorem processed_of_firstPanic_none (v : Controller → Verdict) (ds : List Controller)
    (h : firstPanic v ds = none) : processed v ds = ds := by
  rw [firstPanic_eq_none] at h
  unfold processed
  rw [List.takeWhile_eq_self_iff]
  intro d hd
  simp [h d hd]

theorem processed_initial (v : Controller → Verdict) (ds : List Controller) :
    processed v ds <+: ds :=
  List.takeWhile_prefix _

/-- The value a scan returns: the count of matched and deleted instances
added to `ret`, unless a step panicked. -/
theorem scan_result (v : Controller → Verdict) :
    ∀ (ds : List Controller) (w : World) (ret : Int),
      (scan (probe v) ds w ret).2
        = match firstPanic v ds with
          | some p => .error p
          | none => .ok (ret + removedCount (fun d => (v d).isDelete) ds) := by
  intro ds
  induction ds with
  | nil => intro w ret; simp [scan, firstPanic, removedCount]
  | cons d ds ih =>
    intro w ret
    rw [removedCount_cons]
    cases hv : v d with
    | panic p => simp [scan, probe, hv, firstPanic]
    | skip =>
      have h1 : scan (probe v) (d :: ds) w ret = scan (probe v) ds w ret := by
        simp [scan, probe, hv]
      rw [h1, ih w ret]
      simp only [firstPanic, hv, Verdict.isDelete, Bool.false_and, Bool.false_eq_true, if_false,
        zero_add]
    | delete =>
      cases hok : d.deleteOk with
      | true =>
        have h1 : scan (probe v) (d :: ds) w ret
            = scan (probe v) ds (_disconnect d w).1 (ret + 1) := by
          simp [scan, probe, hv, _disconnect, hok]
        rw [h1, ih]
        simp only [firstPanic, hv, Verdict.isDelete, Bool.and_self, if_true]
        cases firstPanic v ds <;> simp [add_assoc]
      | false =>
        have h1 : scan (probe v) (d :: ds) w ret
            = scan (probe v) ds (_disconnect d w).1 ret := by
          simp [scan, probe, hv, _disconnect, hok]
        rw [h1, ih]
        simp only [firstPanic, hv, Verdict.isDelete, Bool.and_false, Bool.false_eq_true,
          if_false, zero_add]

/-- A scan in closed form. -/
theorem scan_eq (v : Controller → Verdict) (ds : List Controller) (w : World) (ret : Int) :
    scan (probe v) ds w ret
      = (scanned (fun d => (v d).isDelete) (processed v ds) w,
          match firstPanic v ds with
          | some p => .error p
          | none => .ok (ret + removedCount (fun d => (v d).isDelete) ds)) := by
  rw [← scan_world v ds w ret, ← scan_result v ds w ret]

theorem verdictHost_isDelete (nqn hostnqn : String) :
    (fun d => (verdictHost nqn hostnqn d).isDelete) = Controller.matchesHost nqn hostnqn := by
  funext d
  unfold verdictHost Controller.matchesHost Controller.subsysName Controller.hostName
  cases d.subsysnqn with
  | openFail => simp [Verdict.isDelete]
  | readFail => simp [Verdict.isDelete]
  | lines ls =>
    cases ls with
    | nil => simp [Verdict.isDelete]
    | cons l0 rest =>
      by_cases h : l0 = nqn
      · cases d.hostnqn with
        | openFail => simp [h, Verdict.isDelete]
        | readFail => simp [h, Verdict.isDelete]
        | lines hs =>
          cases hs with
          | nil => simp [h, Verdict.isDelete]
          | cons h0 hrest => by_cases h2 : h0 = hostnqn <;> simp [h, h2, Verdict.isDelete]
      · simp [h, Verdict.isDelete]

theorem verdictSubsys_isDelete (nqn : String) :
    (fun d => (verdictSubsys nqn d).isDelete) = Controller.matchesSubsys nqn := by
  funext d
  unfold verdictSubsys Controller.matchesSubsys Controller.subsysName
  cases d.subsysnqn with
  | openFail => simp [Verdict.isDelete]
  | readFail => simp [Verdict.isDelete]
  | lines ls =>
    cases ls with
    | nil => simp [Verdict.isDelete]
    | cons l0 rest => by_cases h : l0 = nqn <;> simp [h, Verdict.isDelete]

theorem verdictHost_noPanic (nqn hostnqn : String) (d : Controller)
    (h : d.scannable = true) : (verdictHost nqn hostnqn d).isPanic = false := by
  unfold Controller.scannable at h
  unfold verdictHost
  cases hs : d.subsysnqn with
  | openFail => simp [hs] at h
  | readFail => simp [Verdict.isPanic]
  | lines ls =>
    cases ls with
    | nil => simp [hs] at h
    | cons l0 rest =>
      by_cases h1 : l0 = nqn
      · cases hh : d.hostnqn with
        | openFail => simp [h1, Verdict.isPanic]
        | readFail => simp [h1, Verdict.isPanic]
        | lines hl =>
          cases hl with
          | nil => simp [hh] at h
          | cons h0 hrest => by_cases h2 : h0 = hostnqn <;> simp [h1, h2, Verdict.isPanic]
      · simp [h1, Verdict.isPanic]

theorem verdictSubsys_noPanic (nqn : String) (d : Controller)
    (h : d.scannable = true) : (verdictSubsys nqn d).isPanic = false := by
  unfold Controller.scannable at h
  unfold verdictSubsys
  cases hs : d.subsysnqn with
  | openFail => simp [hs] at h
  | readFail => simp [Verdict.isPanic]
  | lines ls =>
    cases ls with
    | nil => simp [hs] at h
    | cons l0 rest => by_cases h1 : l0 = nqn <;> simp [h1, Verdict.isPanic]

/-! ## Teardown by subsystem -/

theorem survivors_of_removedCount_zero (m : Controller → Bool) (ds cs : List Controller)
    (h : removedCount m ds = 0) : survivors m ds cs = cs := by
  unfold removedCount at h
  have h0 : List.filter (fun d => m d && d.deleteOk) ds = [] := by
    apply List.eq_nil_of_length_eq_zero
    exact_mod_cast h
  unfold survivors
  rw [h0]
  simp

theorem survivors_nil (m : Controller → Bool) (cs : List Controller) :
    survivors m [] cs = cs := by
  simp [survivors]

theorem requestsFor_nil (m : Controller → Bool) : requestsFor m [] = [] := rfl

theorem byNqn_too_long (K : Consts) (nqn hostnqn : String) (w : World)
    (hlen : len nqn > K.NVMF_NQN_SIZE) :
    disconnectByNqn K nqn hostnqn w = (w, .ok (-K.EINVAL)) := by
  simp [disconnectByNqn, hlen]

theorem byNqn_no_listing (K : Consts) (nqn hostnqn : String) (w : World)
    (hlen : ¬ len nqn > K.NVMF_NQN_SIZE) (hsys : w.sys = none) :
    disconnectByNqn K nqn hostnqn w = (w.remove nqn (b64Encode hostnqn), .ok (-K.ENOENT)) := by
  have hs1 : (w.remove nqn (b64Encode hostnqn)).sys = none := hsys
  simp only [disconnectByNqn, hlen, if_false, hs1]

theorem byNqn_host_panic (K : Consts) (nqn hostnqn : String) (w : World)
    (hlen : ¬ len nqn > K.NVMF_NQN_SIZE) (ds : List Controller) (hsys : w.sys = some ds)
    (p : Panic) (hp : firstPanic (verdictHost nqn hostnqn) ds = some p) :
    disconnectByNqn K nqn hostnqn w
      = (scanned (Controller.matchesHost nqn hostnqn) (processed (verdictHost nqn hostnqn) ds)
          (w.remove nqn (b64Encode hostnqn)), .error p) := by
  have hs1 : (w.remove nqn (b64Encode hostnqn)).sys = some ds := hsys
  simp only [disconnectByNqn, hlen, if_false, hs1, disconnectSubsysWithHostNqn_eq_probe,
    scan_eq, verdictHost_isDelete, hp]

theorem byNqn_no_dir (K : Consts) (nqn hostnqn : String) (w : World)
    (hlen : ¬ len nqn > K.NVMF_NQN_SIZE) (ds : List Controller) (hsys : w.sys = some ds)
    (hp : firstPanic (verdictHost nqn hostnqn) ds = none)
    (hrun : (w.remove nqn (b64Encode hostnqn)).run nqn = none) :
    disconnectByNqn K nqn hostnqn w
      = (scanned (Controller.matchesHost nqn hostnqn) ds (w.remove nqn (b64Encode hostnqn)),
          .ok (-K.ENOENT)) := by
  have hs1 : (w.remove nqn (b64Encode hostnqn)).sys = some ds := hsys
  have hr : (scanned (Controller.matchesHost nqn hostnqn) ds
      (w.remove nqn (b64Encode hostnqn))).run nqn = none := hrun
  simp only [disconnectByNqn, hlen, if_false, hs1, disconnectSubsysWithHostNqn_eq_probe,
    scan_eq, verdictHost_isDelete, hp, processed_of_firstPanic_none _ _ hp, hr]

theorem byNqn_others_remain (K : Consts) (nqn hostnqn : String) (w : World)
    (hlen : ¬ len nqn > K.NVMF_NQN_SIZE) (ds : List Controller) (hsys : w.sys = some ds)
    (hp : firstPanic (verdictHost nqn hostnqn) ds = none) (ms : List String)
    (hrun : (w.remove nqn (b64Encode hostnqn)).run nqn = some ms) (hms : ms ≠ []) :
    disconnectByNqn K nqn hostnqn w
      = (scanned (Controller.matchesHost nqn hostnqn) ds (w.remove nqn (b64Encode hostnqn)),
          .ok (removedCount (Controller.matchesHost nqn hostnqn) ds)) := by
  have hs1 : (w.remove nqn (b64Encode hostnqn)).sys = some ds := hsys
  have hr : (scanned (Controller.matchesHost nqn hostnqn) ds
      (w.remove nqn (b64Encode hostnqn))).run nqn = some ms := hrun
  have hl : ¬ ms.length ≤ 0 := by
    cases ms with
    | nil => exact absurd rfl hms
    | cons a t => simp
  simp only [disconnectByNqn, hlen, if_false, hs1, disconnectSubsysWithHostNqn_eq_probe,
    scan_eq, verdictHost_isDelete, hp, processed_of_firstPanic_none _ _ hp, hr, hl, zero_add]

theorem byNqn_host_removed (K : Consts) (nqn hostnqn : String) (w : World)
    (hlen : ¬ len nqn > K.NVMF_NQN_SIZE) (ds : List Controller) (hsys : w.sys = some ds)
    (hp : firstPanic (verdictHost nqn hostnqn) ds = none)
    (hrun : (w.remove nqn (b64Encode hostnqn)).run nqn = some [])
    (hret : removedCount (Controller.matchesHost nqn hostnqn) ds ≠ 0) :
    disconnectByNqn K nqn hostnqn w
      = ((scanned (Controller.matchesHost nqn hostnqn) ds
            (w.remove nqn (b64Encode hostnqn))).removeAll nqn,
          .ok (removedCount (Controller.matchesHost nqn hostnqn) ds)) := by
  have hs1 : (w.remove nqn (b64Encode hostnqn)).sys = some ds := hsys
  have hr : (scanned (Controller.matchesHost nqn hostnqn) ds
      (w.remove nqn (b64Encode hostnqn))).run nqn = some [] := hrun
  simp only [disconnectByNqn, hlen, if_false, hs1, disconnectSubsysWithHostNqn_eq_probe,
    scan_eq, verdictHost_isDelete, hp, processed_of_firstPanic_none _ _ hp, hr, zero_add,
    List.length_nil, le_refl, if_true, hret]

theorem byNqn_fallback_panic (K : Consts) (nqn hostnqn : String) (w : World)
    (hlen : ¬ len nqn > K.NVMF_NQN_SIZE) (ds : List Controller) (hsys : w.sys = some ds)
    (hp : firstPanic (verdictHost nqn hostnqn) ds = none)
    (hrun : (w.remove nqn (b64Encode hostnqn)).run nqn = some [])
    (hret : removedCount (Controller.matchesHost nqn hostnqn) ds = 0)
    (p : Panic) (hp2 : firstPanic (verdictSubsys nqn) ds = some p) :
    disconnectByNqn K nqn hostnqn w
      = (scanned (Controller.matchesSubsys nqn) (processed (verdictSubsys nqn) ds)
          (scanned (Controller.matchesHost nqn hostnqn) ds
            (w.remove nqn (b64Encode hostnqn))), .error p) := by
  have hs1 : (w.remove nqn (b64Encode hostnqn)).sys = some ds := hsys
  have hr : (scanned (Controller.matchesHost nqn hostnqn) ds
      (w.remove nqn (b64Encode hostnqn))).run nqn = some [] := hrun
  have hs2 : (scanned (Controller.matchesHost nqn hostnqn) ds
      (w.remove nqn (b64Encode hostnqn))).sys = some ds := by
    simp [scanned, hs1, survivors_of_removedCount_zero _ _ _ hret]
  simp only [disconnectByNqn, hlen, if_false, hs1, disconnectSubsysWithHostNqn_eq_probe,
    disconnectSubsys_eq_probe, scan_eq, verdictHost_isDelete, verdictSubsys_isDelete, hp,
    processed_of_firstPanic_none _ _ hp, hr, zero_add, List.length_nil, le_refl, if_true,
    hret, hs2, hp2]

theorem byNqn_fallback (K : Consts) (nqn hostnqn : String) (w : World)
    (hlen : ¬ len nqn > K.NVMF_NQN_SIZE) (ds : List Controller) (hsys : w.sys = some ds)
    (hp : firstPanic (verdictHost nqn hostnqn) ds = none)
    (hrun : (w.remove nqn (b64Encode hostnqn)).run nqn = some [])
    (hret : removedCount (Controller.matchesHost nqn hostnqn) ds = 0)
    (hp2 : firstPanic (verdictSubsys nqn) ds = none) :
    disconnectByNqn K nqn hostnqn w
      = ((scanned (Controller.matchesSubsys nqn) ds
          (scanned (Controller.matchesHost nqn hostnqn) ds
            (w.remove nqn (b64Encode hostnqn)))).removeAll nqn,
          .ok (removedCount (Controller.matchesSubsys nqn) ds)) := by
  have hs1 : (w.remove nqn (b64Encode hostnqn)).sys = some ds := hsys
  have hr : (scanned (Controller.matchesHost nqn hostnqn) ds
      (w.remove nqn (b64Encode hostnqn))).run nqn = some [] := hrun
  have hs2 : (scanned (Controller.matchesHost nqn hostnqn) ds
      (w.remove nqn (b64Encode hostnqn))).sys = some ds := by
    simp [scanned, hs1, survivors_of_removedCount_zero _ _ _ hret]
  simp only [disconnectByNqn, hlen, if_false, hs1, disconnectSubsysWithHostNqn_eq_probe,
    disconnectSubsys_eq_probe, scan_eq, verdictHost_isDelete, verdictSubsys_isDelete, hp,
    processed_of_firstPanic_none _ _ hp, hr, zero_add, List.length_nil, le_refl, if_true,
    hret, hs2, hp2, processed_of_firstPanic_none _ _ hp2]

/-- The shape of every outcome of `disconnectByNqn`: delete requests of a
host-scoped pass over `pre1`, then of a fallback pass over `pre2`, which is
empty unless the host-scoped pass removed nothing and the directory is
empty. -/
theorem disconnectByNqn_shape (K : Consts) (nqn hostnqn : String) (w : World) :
    ∃ pre1 pre2 : List Controller,
      (∀ d ∈ pre1, d ∈ w.ctrls) ∧ (∀ d ∈ pre2, d ∈ w.ctrls) ∧
      (pre2 ≠ [] → removedCount (Controller.matchesHost nqn hostnqn) w.ctrls = 0
        ∧ (w.remove nqn (b64Encode hostnqn)).run nqn = some []) ∧
      (disconnectByNqn K nqn hostnqn w).1.trace
        = w.trace ++ (requestsFor (Controller.matchesHost nqn hostnqn) pre1
            ++ requestsFor (Controller.matchesSubsys nqn) pre2) ∧
      (disconnectByNqn K nqn hostnqn w).1.sys
        = w.sys.map (fun cs => survivors (Controller.matchesSubsys nqn) pre2
            (survivors (Controller.matchesHost nqn hostnqn) pre1 cs)) := by
  by_cases hlen : len nqn > K.NVMF_NQN_SIZE
  · rw [byNqn_too_long K nqn hostnqn w hlen]
    refine ⟨[], [], by simp, by simp, by simp, by simp [requestsFor_nil], ?_⟩
    cases w.sys <;> simp [survivors_nil]
  cases hsys : w.sys with
  | none =>
    rw [byNqn_no_listing K nqn hostnqn w hlen hsys]
    exact ⟨[], [], by simp, by simp, by simp, by simp [requestsFor_nil, World.remove],
      by simp [World.remove, hsys]⟩
  | some ds =>
    have hctrls : w.ctrls = ds := by simp [World.ctrls, hsys]
    have hpre : ∀ v, ∀ d ∈ processed v ds, d ∈ w.ctrls := by
      intro v d hd
      rw [hctrls]
      exact (processed_initial v ds).subset hd
    cases hp : firstPanic (verdictHost nqn hostnqn) ds with
    | some p =>
      rw [byNqn_host_panic K nqn hostnqn w hlen ds hsys p hp]
      exact ⟨processed (verdictHost nqn hostnqn) ds, [], hpre _, by simp, by simp,
        by simp [requestsFor_nil, scanned, World.remove],
        by simp [scanned, World.remove, hsys, survivors_nil]⟩
    | none =>
      cases hrun : (w.remove nqn (b64Encode hostnqn)).run nqn with
      | none =>
        rw [byNqn_no_dir K nqn hostnqn w hlen ds hsys hp hrun]
        exact ⟨ds, [], by simp [hctrls], by simp, by simp,
          by simp [requestsFor_nil, scanned, World.remove],
          by simp [scanned, World.remove, hsys, survivors_nil]⟩
      | some ms =>
        by_cases hms : ms = []
        · subst hms
          by_cases hret : removedCount (Controller.matchesHost nqn hostnqn) ds = 0
          · cases hp2 : firstPanic (verdictSubsys nqn) ds with
            | some p =>
              rw [byNqn_fallback_panic K nqn hostnqn w hlen ds hsys hp hrun hret p hp2]
              exact ⟨ds, processed (verdictSubsys nqn) ds, by simp [hctrls], hpre _,
                by simp [hctrls, hret],
                by simp [scanned, World.remove, List.append_assoc],
                by simp [scanned, World.remove, hsys]⟩
            | none =>
              rw [byNqn_fallback K nqn hostnqn w hlen ds hsys hp hrun hret hp2]
              exact ⟨ds, ds, by simp [hctrls], by simp [hctrls],
                by simp [hctrls, hret],
                by simp [scanned, World.remove, World.removeAll, List.append_assoc],
                by simp [scanned, World.remove, World.removeAll, hsys]⟩
          · rw [byNqn_host_removed K nqn hostnqn w hlen ds hsys hp hrun hret]
            exact ⟨ds, [], by simp [hctrls], by simp, by simp,
              by simp [requestsFor_nil, scanned, World.remove, World.removeAll],
              by simp [scanned, World.remove, World.removeAll, hsys, survivors_nil]⟩
        · rw [byNqn_others_remain K nqn hostnqn w hlen ds hsys hp ms hrun hms]
          exact ⟨ds, [], by simp [hctrls], by simp, by simp,
            by simp [requestsFor_nil, scanned, World.remove],
            by simp [scanned, World.remove, hsys, survivors_nil]⟩

/-- The bookkeeping tree after `disconnectByNqn` on a subsystem name of
admissible length: the marker is removed and the directory is either kept or
removed as a whole. -/
theorem byNqn_run (K : Consts) (nqn hostnqn : String) (w : World)
    (hlen : ¬ len nqn > K.NVMF_NQN_SIZE) :
    (disconnectByNqn K nqn hostnqn w).1.run = (w.remove nqn (b64Encode hostnqn)).run
      ∨ (disconnectByNqn K nqn hostnqn w).1.run
          = ((w.remove nqn (b64Encode hostnqn)).removeAll nqn).run := by
  cases hsys : w.sys with
  | none =>
    rw [byNqn_no_listing K nqn hostnqn w hlen hsys]
    exact Or.inl rfl
  | some ds =>
    cases hp : firstPanic (verdictHost nqn hostnqn) ds with
    | some p =>
      rw [byNqn_host_panic K nqn hostnqn w hlen ds hsys p hp]
      exact Or.inl rfl
    | none =>
      cases hrun : (w.remove nqn (b64Encode hostnqn)).run nqn with
      | none =>
        rw [byNqn_no_dir K nqn hostnqn w hlen ds hsys hp hrun]
        exact Or.inl rfl
      | some ms =>
        by_cases hms : ms = []
        · subst hms
          by_cases hret : removedCount (Controller.matchesHost nqn hostnqn) ds = 0
          · cases hp2 : firstPanic (verdictSubsys nqn) ds with
            | some p =>
              rw [byNqn_fallback_panic K nqn hostnqn w hlen ds hsys hp hrun hret p hp2]
              exact Or.inl rfl
            | none =>
              rw [byNqn_fallback K nqn hostnqn w hlen ds hsys hp hrun hret hp2]
              exact Or.inr rfl
          · rw [byNqn_host_removed K nqn hostnqn w hlen ds hsys hp hrun hret]
            exact Or.inr rfl
        · rw [byNqn_others_remain K nqn hostnqn w hlen ds hsys hp ms hrun hms]
          exact Or.inl rfl

theorem remove_run_of_nonempty (w : World) (nqn file : String) (fs : List String)
    (h : w.run nqn = some fs) (hne : fs ≠ []) :
    (w.remove nqn file).run nqn = some (fs.filter (fun f => f ≠ file)) := by
  unfold World.remove
  simp only [if_true, h]
  cases fs with
  | nil => exact absurd rfl hne
  | cons a t => rfl

theorem remove_run_of_named (w : World) (nqn file : String) (hf : file ≠ "") :
    (w.remove nqn file).run nqn
      = (w.run nqn).map (fun fs => fs.filter (fun f => f ≠ file)) := by
  unfold World.remove
  simp only [if_true]
  cases h : w.run nqn with
  | none => rfl
  | some fs =>
    cases fs with
    | nil => simp [hf]
    | cons a t => rfl

theorem remove_run_other (w : World) (nqn file d : String) (hd : d ≠ nqn) :
    (w.remove nqn file).run d = w.run d := by
  simp [World.remove, hd]

theorem remove_run_cases (w : World) (nqn file : String) :
    (w.remove nqn file).run nqn = none
      ∨ ∃ fs, w.run nqn = some fs
          ∧ (w.remove nqn file).run nqn = some (fs.filter (fun f => f ≠ file)) := by
  unfold World.remove
  simp only [if_true]
  cases h : w.run nqn with
  | none => exact Or.inl rfl
  | some fs =>
    cases fs with
    | nil =>
      by_cases hf : file = ""
      · exact Or.inl (by simp [hf])
      · exact Or.inr ⟨[], rfl, by simp [hf]⟩
    | cons a t => exact Or.inr ⟨a :: t, rfl, rfl⟩

theorem hasMarker_remove (w : World) (nqn hostnqn : String) :
    (w.remove nqn (b64Encode hostnqn)).hasMarker nqn hostnqn = false := by
  unfold World.hasMarker
  rcases remove_run_cases w nqn (b64Encode hostnqn) with h | ⟨fs, -, h⟩
  · rw [h]
  · rw [h]; simp

theorem hasMarker_congr (w1 w2 : World) (nqn hostnqn : String) (h : w1.run = w2.run) :
    w1.hasMarker nqn hostnqn = w2.hasMarker nqn hostnqn := by
  unfold World.hasMarker
  rw [h]

theorem hasMarker_removeAll (w : World) (nqn hostnqn : String) :
    (w.removeAll nqn).hasMarker nqn hostnqn = false := by
  simp [World.hasMarker, World.removeAll]

/-- After `disconnectByNqn` on a subsystem name of admissible length the
marker of the pair is gone, whatever the outcome. -/
theorem byNqn_no_marker (K : Consts) (nqn hostnqn : String) (w : World)
    (hlen : ¬ len nqn > K.NVMF_NQN_SIZE) :
    (disconnectByNqn K nqn hostnqn w).1.hasMarker nqn hostnqn = false := by
  rcases byNqn_run K nqn hostnqn w hlen with h | h
  · rw [hasMarker_congr _ _ nqn hostnqn h, hasMarker_remove]
  · rw [hasMarker_congr _ _ nqn hostnqn h, hasMarker_removeAll]

theorem firstPanic_host_of_scannable (nqn hostnqn : String) (ds : List Controller)
    (h : ∀ d ∈ ds, d.scannable = true) : firstPanic (verdictHost nqn hostnqn) ds = none :=
  (firstPanic_eq_none _ _).mpr (fun d hd => verdictHost_noPanic nqn hostnqn d (h d hd))

theorem firstPanic_subsys_of_scannable (nqn : String) (ds : List Controller)
    (h : ∀ d ∈ ds, d.scannable = true) : firstPanic (verdictSubsys nqn) ds = none :=
  (firstPanic_eq_none _ _).mpr (fun d hd => verdictSubsys_noPanic nqn d (h d hd))

/-- When every listed controller can be scanned, `disconnectByNqn` returns. -/
theorem byNqn_returns (K : Consts) (nqn hostnqn : String) (w : World)
    (h : ∀ d ∈ w.ctrls, d.scannable = true) :
    ∃ r, (disconnectByNqn K nqn hostnqn w).2 = .ok r := by
  by_cases hlen : len nqn > K.NVMF_NQN_SIZE
  · rw [byNqn_too_long K nqn hostnqn w hlen]; exact ⟨_, rfl⟩
  cases hsys : w.sys with
  | none => rw [byNqn_no_listing K nqn hostnqn w hlen hsys]; exact ⟨_, rfl⟩
  | some ds =>
    have hctrls : w.ctrls = ds := by simp [World.ctrls, hsys]
    rw [hctrls] at h
    have hp := firstPanic_host_of_scannable nqn hostnqn ds h
    have hp2 := firstPanic_subsys_of_scannable nqn ds h
    cases hrun : (w.remove nqn (b64Encode hostnqn)).run nqn with
    | none => rw [byNqn_no_dir K nqn hostnqn w hlen ds hsys hp hrun]; exact ⟨_, rfl⟩
    | some ms =>
      by_cases hms : ms = []
      · subst hms
        by_cases hret : removedCount (Controller.matchesHost nqn hostnqn) ds = 0
        · rw [byNqn_fallback K nqn hostnqn w hlen ds hsys hp hrun hret hp2]; exact ⟨_, rfl⟩
        · rw [byNqn_host_removed K nqn hostnqn w hlen ds hsys hp hrun hret]; exact ⟨_, rfl⟩
      · rw [byNqn_others_remain K nqn hostnqn w hlen ds hsys hp ms hrun hms]; exact ⟨_, rfl⟩

theorem mem_requestsFor (m : Controller → Bool) (ds : List Controller) (e : Event) :
    e ∈ requestsFor m ds ↔ ∃ d ∈ ds, m d = true ∧ e = Event.deleteRequest d.name := by
  unfold requestsFor
  simp only [List.mem_map, List.mem_filter]
  constructor
  · rintro ⟨d, ⟨hd, hm⟩, rfl⟩
    exact ⟨d, hd, hm, rfl⟩
  · rintro ⟨d, hd, hm, rfl⟩
    exact ⟨d, ⟨hd, hm⟩, rfl⟩

theorem mem_survivors (m : Controller → Bool) (ds cs : List Controller) (c : Controller) :
    c ∈ survivors m ds cs
      ↔ c ∈ cs ∧ ∀ d ∈ ds, m d = true → d.deleteOk = true → d.name ≠ c.name := by
  unfold survivors
  simp only [List.mem_filter, Bool.not_eq_true', List.any_eq_false, List.mem_filter,
    Bool.and_eq_true, beq_iff_eq, and_imp]

theorem matchesHost_iff (nqn hostnqn : String) (d : Controller) :
    d.matchesHost nqn hostnqn = true ↔ d.subsysName = some nqn ∧ d.hostName = some hostnqn := by
  simp [Controller.matchesHost]

theorem matchesSubsys_iff (nqn : String) (d : Controller) :
    d.matchesSubsys nqn = true ↔ d.subsysName = some nqn := by
  simp [Controller.matchesSubsys]

theorem newEvents_of_trace (w w1 : World) (evs : List Event)
    (h : w1.trace = w.trace ++ evs) : newEvents w w1 = evs := by
  simp [newEvents, h]

/-! ## Safety of the teardown -/

/-- C4: every delete request that `disconnectByNqn` issues names a listed
controller instance whose subsystem-name (first line of `subsysnqn`) equals
the target NQN and whose host-identity equals the host NQN, unless the request
belongs to the fallback pass, which runs only when the host-scoped pass
removed zero instances and the bookkeeping directory is empty; an instance for
which no delete request was issued stays in the controller table, and no
instance is added.  When the names of the listing are distinct, as in a
directory, every listed instance whose name occurs in a delete request is
such a match. -/
theorem disconnectByNqn_deletes_only_matches (K : Consts) (nqn hostnqn : String) (w : World) :
    (disconnectByNqn K nqn hostnqn w).1.trace
        = w.trace ++ newEvents w (disconnectByNqn K nqn hostnqn w).1 ∧
    (∀ e ∈ newEvents w (disconnectByNqn K nqn hostnqn w).1,
      ∃ d ∈ w.ctrls, e = Event.deleteRequest d.name ∧ d.subsysName = some nqn ∧
        (d.hostName = some hostnqn ∨
          (removedCount (Controller.matchesHost nqn hostnqn) w.ctrls = 0 ∧
            (w.remove nqn (b64Encode hostnqn)).run nqn = some []))) ∧
    (∀ d ∈ w.ctrls,
      Event.deleteRequest d.name ∉ newEvents w (disconnectByNqn K nqn hostnqn w).1 →
        d ∈ (disconnectByNqn K nqn hostnqn w).1.ctrls) ∧
    (∀ d ∈ (disconnectByNqn K nqn hostnqn w).1.ctrls, d ∈ w.ctrls) ∧
    ((w.ctrls.map Controller.name).Nodup →
      ∀ d ∈ w.ctrls,
        Event.deleteRequest d.name ∈ newEvents w (disconnectByNqn K nqn hostnqn w).1 →
          d.subsysName = some nqn ∧
            (d.hostName = some hostnqn ∨
              (removedCount (Controller.matchesHost nqn hostnqn) w.ctrls = 0 ∧
                (w.remove nqn (b64Encode hostnqn)).run nqn = some []))) := by
  obtain ⟨pre1, pre2, h1, h2, hfb, htr, hsys⟩ := disconnectByNqn_shape K nqn hostnqn w
  have hev := newEvents_of_trace w _ _ htr
  rw [hev]
  have hc : (disconnectByNqn K nqn hostnqn w).1.ctrls
      = survivors (Controller.matchesSubsys nqn) pre2
          (survivors (Controller.matchesHost nqn hostnqn) pre1 w.ctrls) := by
    unfold World.ctrls
    rw [hsys]
    cases w.sys <;> simp [survivors]
  have hreq : ∀ e ∈ requestsFor (Controller.matchesHost nqn hostnqn) pre1
        ++ requestsFor (Controller.matchesSubsys nqn) pre2,
      ∃ d ∈ w.ctrls, e = Event.deleteRequest d.name ∧ d.subsysName = some nqn ∧
        (d.hostName = some hostnqn ∨
          (removedCount (Controller.matchesHost nqn hostnqn) w.ctrls = 0 ∧
            (w.remove nqn (b64Encode hostnqn)).run nqn = some [])) := by
    intro e he
    rcases List.mem_append.mp he with he | he
    · obtain ⟨d, hd, hm, rfl⟩ := (mem_requestsFor _ _ _).mp he
      rw [matchesHost_iff] at hm
      exact ⟨d, h1 d hd, rfl, hm.1, Or.inl hm.2⟩
    · obtain ⟨d, hd, hm, rfl⟩ := (mem_requestsFor _ _ _).mp he
      rw [matchesSubsys_iff] at hm
      have hne : pre2 ≠ [] := List.ne_nil_of_mem hd
      exact ⟨d, h2 d hd, rfl, hm, Or.inr (hfb hne)⟩
  refine ⟨htr, hreq, ?_, ?_, ?_⟩
  · intro d hd hnot
    rw [hc, mem_survivors, mem_survivors]
    refine ⟨⟨hd, ?_⟩, ?_⟩
    · intro d1 hd1 hm _ hname
      apply hnot
      apply List.mem_append_left
      exact (mem_requestsFor _ _ _).mpr ⟨d1, hd1, hm, by rw [hname]⟩
    · intro d1 hd1 hm _ hname
      apply hnot
      apply List.mem_append_right
      exact (mem_requestsFor _ _ _).mpr ⟨d1, hd1, hm, by rw [hname]⟩
  · intro d hd
    rw [hc, mem_survivors, mem_survivors] at hd
    exact hd.1.1
  · intro hnd d hd he
    obtain ⟨d1, hd1, hname, hprop⟩ := hreq _ he
    have hn : d.name = d1.name := by injection hname
    have : d = d1 := List.inj_on_of_nodup_map hnd hd hd1 hn
    rw [this]
    exact hprop

/-! ## Connect -/

theorem normalize_fields (c : Connector) :
    normalize c = { c with
      RetryCount := if c.RetryCount = 0 then 10 else c.RetryCount,
      CheckInterval := if c.CheckInterval = 0 then 1 else c.CheckInterval } := by
  unfold normalize
  by_cases h1 : c.RetryCount = 0 <;> by_cases h2 : c.CheckInterval = 0 <;> simp [h1, h2]

theorem normalize_valid (c : Connector) (h : c.valid) :
    ¬ ((normalize c).RetryCount < 0 ∨ (normalize c).CheckInterval < 0)
      ∧ ¬ (toLower (normalize c).Transport ≠ "tcp" ∧ toLower (normalize c).Transport ≠ "rdma") := by
  obtain ⟨ht, hr, hc⟩ := h
  rw [normalize_fields]
  constructor
  · simp only [not_or, not_lt]
    constructor
    · split <;> omega
    · split <;> omega
  · simp only [ne_eq, not_and, not_not]
    intro h1
    rcases ht with ht | ht
    · exact absurd ht h1
    · exact ht

theorem rollback_world (K : Consts) (c : Connector) (err : Option Err) (w : World) :
    (rollback K c err w).world = (disconnectByNqn K c.TargetNqn c.HostNqn w).1 := by
  unfold rollback
  split <;> simp_all

theorem rollback_connector (K : Consts) (c : Connector) (err : Option Err) (w : World) :
    (rollback K c err w).connector = c := by
  unfold rollback
  split <;> rfl

theorem rollback_result (K : Consts) (c : Connector) (err : Option Err) (w : World) :
    (rollback K c err w).result
      = match (disconnectByNqn K c.TargetNqn c.HostNqn w).2 with
        | .error p => .error p
        | .ok _ => .ok ("", err) := by
  unfold rollback
  split <;> simp_all

theorem Connect_connector (K : Consts) (env : Env) (c : Connector) (w : World) :
    (Connect K env c w).connector = normalize c := by
  unfold Connect
  simp only []
  split
  · rfl
  split
  · rfl
  split
  · rfl
  split
  · exact rollback_connector _ _ _ _
  split
  · exact rollback_connector _ _ _ _
  split
  · exact rollback_connector _ _ _ _
  · rfl

theorem Connect_invalid (K : Consts) (env : Env) (c : Connector) (w : World)
    (h : ¬ c.valid) :
    (Connect K env c w).world = w ∧ ∃ err, (Connect K env c w).result = .ok ("", some err) := by
  unfold Connect
  simp only []
  by_cases h1 : (normalize c).RetryCount < 0 ∨ (normalize c).CheckInterval < 0
  · rw [if_pos h1]
    exact ⟨rfl, _, rfl⟩
  · by_cases h2 : toLower (normalize c).Transport ≠ "tcp"
        ∧ toLower (normalize c).Transport ≠ "rdma"
    · rw [if_neg h1, if_pos h2]
      exact ⟨rfl, _, rfl⟩
    · exfalso
      apply h
      rw [normalize_fields] at h1 h2
      simp only [ne_eq, not_and, not_not, not_or, not_lt] at h1 h2
      refine ⟨?_, ?_, ?_⟩
      · by_cases h3 : toLower c.Transport = "tcp"
        · exact Or.inl h3
        · exact Or.inr (h2 h3)
      · have := h1.1
        split at this <;> omega
      · have := h1.2
        split at this <;> omega

theorem Connect_of_valid (K : Consts) (env : Env) (c : Connector) (w : World)
    (h : c.valid) :
    Connect K env c w
      = match _connect env (baseString (normalize c)) w with
        | (w1, some err) => ⟨w1, normalize c, .ok ("", some err)⟩
        | (w1, none) =>
          match env.waitForPathToExist (devicePath (normalize c)) (retries (normalize c))
              (normalize c).CheckInterval (normalize c).Transport with
          | (false, err) => rollback K (normalize c) err
              (w1.log (Event.poll (devicePath (normalize c)) (retries (normalize c))
                (normalize c).CheckInterval (normalize c).Transport))
          | (true, _) =>
            match env.mkdirErr with
            | some err => rollback K (normalize c) (some err)
                (w1.log (Event.poll (devicePath (normalize c)) (retries (normalize c))
                  (normalize c).CheckInterval (normalize c).Transport))
            | none =>
              match env.createErr with
              | some err => rollback K (normalize c) (some err)
                  ((w1.log (Event.poll (devicePath (normalize c)) (retries (normalize c))
                    (normalize c).CheckInterval (normalize c).Transport)).mkdirAll
                      (normalize c).TargetNqn)
              | none =>
                ⟨((w1.log (Event.poll (devicePath (normalize c)) (retries (normalize c))
                    (normalize c).CheckInterval (normalize c).Transport)).mkdirAll
                      (normalize c).TargetNqn).create (normalize c).TargetNqn
                        (b64Encode (normalize c).HostNqn),
                  normalize c, .ok (devicePath (normalize c), none)⟩ := by
  obtain ⟨h1, h2⟩ := normalize_valid c h
  unfold Connect
  simp only [h1, h2, if_false]

theorem Connect_open_fail (K : Consts) (env : Env) (c : Connector) (w : World)
    (h : c.valid) (e : Err) (ho : env.fabricOpenErr = some e) :
    Connect K env c w = ⟨w.log Event.fabricOpen, normalize c, .ok ("", some e)⟩ := by
  rw [Connect_of_valid K env c w h]
  simp [_connect, ho]

theorem Connect_write_fail (K : Consts) (env : Env) (c : Connector) (w : World)
    (h : c.valid) (ho : env.fabricOpenErr = none) (e : Err) (hw : env.fabricWriteErr = some e) :
    Connect K env c w
      = ⟨(w.log Event.fabricOpen).log (Event.fabricWrite (baseString (normalize c))),
          normalize c, .ok ("", some e)⟩ := by
  rw [Connect_of_valid K env c w h]
  simp [_connect, ho, hw]

theorem _connect_ok (env : Env) (arg : String) (w : World)
    (ho : env.fabricOpenErr = none) (hw : env.fabricWriteErr = none) :
    _connect env arg w
      = ({ (w.log Event.fabricOpen).log (Event.fabricWrite arg) with
            sys := some (w.sys.getD [] ++ env.attached) }, none) := by
  unfold _connect
  simp only [ho, hw]
  rfl

theorem Connect_poll_fail (K : Consts) (env : Env) (c : Connector) (w : World)
    (h : c.valid) (ho : env.fabricOpenErr = none) (hw : env.fabricWriteErr = none)
    (err : Option Err)
    (hpoll : env.waitForPathToExist (devicePath (normalize c)) (retries (normalize c))
      (normalize c).CheckInterval (normalize c).Transport = (false, err)) :
    Connect K env c w = rollback K (normalize c) err (polled env (normalize c) w) := by
  rw [Connect_of_valid K env c w h, _connect_ok env _ w ho hw]
  simp only [hpoll]
  rfl

theorem Connect_mkdir_fail (K : Consts) (env : Env) (c : Connector) (w : World)
    (h : c.valid) (ho : env.fabricOpenErr = none) (hw : env.fabricWriteErr = none)
    (x : Option Err)
    (hpoll : env.waitForPathToExist (devicePath (normalize c)) (retries (normalize c))
      (normalize c).CheckInterval (normalize c).Transport = (true, x))
    (e : Err) (hm : env.mkdirErr = some e) :
    Connect K env c w = rollback K (normalize c) (some e) (polled env (normalize c) w) := by
  rw [Connect_of_valid K env c w h, _connect_ok env _ w ho hw]
  simp only [hpoll, hm]
  rfl

theorem Connect_create_fail (K : Consts) (env : Env) (c : Connector) (w : World)
    (h : c.valid) (ho : env.fabricOpenErr = none) (hw : env.fabricWriteErr = none)
    (x : Option Err)
    (hpoll : env.waitForPathToExist (devicePath (normalize c)) (retries (normalize c))
      (normalize c).CheckInterval (normalize c).Transport = (true, x))
    (hm : env.mkdirErr = none) (e : Err) (hc : env.createErr = some e) :
    Connect K env c w
      = rollback K (normalize c) (some e)
          ((polled env (normalize c) w).mkdirAll (normalize c).TargetNqn) := by
  rw [Connect_of_valid K env c w h, _connect_ok env _ w ho hw]
  simp only [hpoll, hm, hc]
  rfl

theorem Connect_success (K : Consts) (env : Env) (c : Connector) (w : World)
    (h : c.valid) (ho : env.fabricOpenErr = none) (hw : env.fabricWriteErr = none)
    (x : Option Err)
    (hpoll : env.waitForPathToExist (devicePath (normalize c)) (retries (normalize c))
      (normalize c).CheckInterval (normalize c).Transport = (true, x))
    (hm : env.mkdirErr = none) (hc : env.createErr = none) :
    Connect K env c w
      = ⟨((polled env (normalize c) w).mkdirAll (normalize c).TargetNqn).create
            (normalize c).TargetNqn (b64Encode (normalize c).HostNqn),
          normalize c, .ok (devicePath (normalize c), none)⟩ := by
  rw [Connect_of_valid K env c w h, _connect_ok env _ w ho hw]
  simp only [hpoll, hm, hc]
  rfl

theorem byNqn_trace (K : Consts) (nqn hostnqn : String) (w : World) :
    ∃ dels, (∀ e ∈ dels, e.isDelete = true)
      ∧ (disconnectByNqn K nqn hostnqn w).1.trace = w.trace ++ dels := by
  obtain ⟨pre1, pre2, -, -, -, htr, -⟩ := disconnectByNqn_shape K nqn hostnqn w
  refine ⟨_, ?_, htr⟩
  intro e he
  rcases List.mem_append.mp he with he | he
  · obtain ⟨d, -, -, rfl⟩ := (mem_requestsFor _ _ _).mp he
    rfl
  · obtain ⟨d, -, -, rfl⟩ := (mem_requestsFor _ _ _).mp he
    rfl

theorem polled_trace (env : Env) (c : Connector) (w : World)
    (ho : env.fabricOpenErr = none) (hw : env.fabricWriteErr = none) :
    (polled env c w).trace = w.trace ++ attachEvents env c := by
  simp [polled, attachEvents, ho, hw, World.log]

/-- The trace of a `Connect` that passes validation: the attach events, then
the delete requests of a rollback. -/
theorem Connect_trace (K : Consts) (env : Env) (c : Connector) (w : World) (h : c.valid) :
    ∃ dels, (∀ e ∈ dels, e.isDelete = true)
      ∧ (Connect K env c w).world.trace = w.trace ++ attachEvents env (normalize c) ++ dels := by
  cases ho : env.fabricOpenErr with
  | some e =>
    rw [Connect_open_fail K env c w h e ho]
    exact ⟨[], by simp, by simp [attachEvents, ho, World.log]⟩
  | none =>
    cases hw : env.fabricWriteErr with
    | some e =>
      rw [Connect_write_fail K env c w h ho e hw]
      exact ⟨[], by simp, by simp [attachEvents, ho, hw, World.log]⟩
    | none =>
      have hroll : ∀ (err : Option Err) (w2 : World),
          w2.trace = (polled env (normalize c) w).trace →
          ∃ dels, (∀ e ∈ dels, e.isDelete = true)
            ∧ (rollback K (normalize c) err w2).world.trace
              = w.trace ++ attachEvents env (normalize c) ++ dels := by
        intro err w2 h2
        obtain ⟨dels, hd, ht⟩ := byNqn_trace K (normalize c).TargetNqn (normalize c).HostNqn w2
        refine ⟨dels, hd, ?_⟩
        rw [rollback_world, ht, h2, polled_trace env _ w ho hw]
      cases hpoll : env.waitForPathToExist (devicePath (normalize c)) (retries (normalize c))
          (normalize c).CheckInterval (normalize c).Transport with
      | mk ex x =>
        cases ex with
        | false =>
          rw [Connect_poll_fail K env c w h ho hw x hpoll]
          exact hroll _ _ rfl
        | true =>
          cases hm : env.mkdirErr with
          | some e =>
            rw [Connect_mkdir_fail K env c w h ho hw x hpoll e hm]
            exact hroll _ _ rfl
          | none =>
            cases hc : env.createErr with
            | some e =>
              rw [Connect_create_fail K env c w h ho hw x hpoll hm e hc]
              exact hroll _ _ rfl
            | none =>
              rw [Connect_success K env c w h ho hw x hpoll hm hc]
              refine ⟨[], by simp, ?_⟩
              rw [List.append_nil, ← polled_trace env _ w ho hw]
              rfl

theorem baseString_normalize (c : Connector) : baseString (normalize c) = baseString c := by
  rw [normalize_fields]; rfl

theorem devicePath_normalize (c : Connector) : devicePath (normalize c) = devicePath c := by
  rw [normalize_fields]; rfl

/-- A connector that passes validation reaches the open of the fabric control
file and, when it opens, the write of the argument string. -/
theorem Connect_reaches_fabric (K : Consts) (env : Env) (c : Connector) (w : World)
    (h : c.valid) :
    ∃ rest, (Connect K env c w).world.trace = w.trace ++ Event.fabricOpen :: rest
      ∧ (env.fabricOpenErr = none →
          ∃ rest2, rest = Event.fabricWrite (baseString c) :: rest2) := by
  obtain ⟨dels, -, ht⟩ := Connect_trace K env c w h
  rw [ht]
  cases ho : env.fabricOpenErr with
  | some e =>
    refine ⟨dels, by simp [attachEvents, ho], ?_⟩
    intro hcontra; cases hcontra
  | none =>
    cases hw : env.fabricWriteErr with
    | some e =>
      exact ⟨Event.fabricWrite (baseString c) :: dels,
        by simp [attachEvents, ho, hw, baseString_normalize], fun _ => ⟨_, rfl⟩⟩
    | none =>
      exact ⟨Event.fabricWrite (baseString c)
          :: Event.poll (devicePath (normalize c)) (retries (normalize c))
              (normalize c).CheckInterval (normalize c).Transport :: dels,
        by simp [attachEvents, ho, hw, baseString_normalize], fun _ => ⟨_, rfl⟩⟩

/-- C8: a connector whose transport lower-cases to `tcp` or `rdma` and whose
counters are not negative passes validation, and `Connect` goes on to open the
fabric control file and, when it opens, to write the argument string; for any
other transport or a negative counter `Connect` returns an error with an empty
device path and leaves the world, trace included, as it was. -/
theorem Connect_validation (K : Consts) (env : Env) (c : Connector) (w : World) :
    (c.valid →
      ∃ rest, (Connect K env c w).world.trace = w.trace ++ Event.fabricOpen :: rest
        ∧ (env.fabricOpenErr = none →
            ∃ rest2, rest = Event.fabricWrite (baseString c) :: rest2)) ∧
    (¬ c.valid →
      (Connect K env c w).world = w
        ∧ ∃ err, (Connect K env c w).result = .ok ("", some err)) := by
  refine ⟨fun h => ?_, Connect_invalid K env c w⟩
  obtain ⟨dels, -, ht⟩ := Connect_trace K env c w h
  rw [ht]
  cases ho : env.fabricOpenErr with
  | some e =>
    refine ⟨dels, by simp [attachEvents, ho], ?_⟩
    intro hcontra; cases hcontra
  | none =>
    cases hw : env.fabricWriteErr with
    | some e =>
      exact ⟨Event.fabricWrite (baseString c) :: dels,
        by simp [attachEvents, ho, hw, baseString_normalize], fun _ => ⟨_, rfl⟩⟩
    | none =>
      exact ⟨Event.fabricWrite (baseString c)
          :: Event.poll (devicePath (normalize c)) (retries (normalize c))
              (normalize c).CheckInterval (normalize c).Transport :: dels,
        by simp [attachEvents, ho, hw, baseString_normalize], fun _ => ⟨_, rfl⟩⟩

/-- C9: for a connector that passes validation `Connect` replaces a zero
`RetryCount` by 10 and a zero `CheckInterval` by 1 and leaves every other
value as it was; the normalized `CheckInterval` is at least 1, so the division
is never by zero; every call of the poller has the expected device path, the
truncated quotient of the normalized counters as attempt count, the
normalized `CheckInterval` as interval and the transport as hint; when the
fabric write succeeds the poller is called exactly so, once; with both
counters zero that is 10 attempts at interval 1. -/
theorem Connect_normalization (K : Consts) (env : Env) (c : Connector) (w : World)
    (h : c.valid) :
    (Connect K env c w).connector
        = { c with
            RetryCount := if c.RetryCount = 0 then 10 else c.RetryCount,
            CheckInterval := if c.CheckInterval = 0 then 1 else c.CheckInterval } ∧
    1 ≤ (Connect K env c w).connector.CheckInterval ∧
    (∀ p r i t, Event.poll p r i t ∈ newEvents w (Connect K env c w).world →
      p = devicePath c
        ∧ r = Int.tdiv (Connect K env c w).connector.RetryCount
                (Connect K env c w).connector.CheckInterval
        ∧ i = (Connect K env c w).connector.CheckInterval ∧ t = c.Transport) ∧
    (env.fabricOpenErr = none → env.fabricWriteErr = none →
      ∃ dels, (∀ e ∈ dels, e.isDelete = true) ∧
        newEvents w (Connect K env c w).world
          = [Event.fabricOpen, Event.fabricWrite (baseString c),
              Event.poll (devicePath c)
                (Int.tdiv (Connect K env c w).connector.RetryCount
                  (Connect K env c w).connector.CheckInterval)
                (Connect K env c w).connector.CheckInterval c.Transport] ++ dels) ∧
    (c.RetryCount = 0 → c.CheckInterval = 0 →
      Int.tdiv (Connect K env c w).connector.RetryCount
          (Connect K env c w).connector.CheckInterval = 10
        ∧ (Connect K env c w).connector.CheckInterval = 1) := by
  obtain ⟨dels, hdels, ht⟩ := Connect_trace K env c w h
  have hev : newEvents w (Connect K env c w).world = attachEvents env (normalize c) ++ dels :=
    newEvents_of_trace w _ _ (by rw [ht, List.append_assoc])
  rw [hev, Connect_connector]
  have htr : (normalize c).Transport = c.Transport := by rw [normalize_fields]
  refine ⟨normalize_fields c, ?_, ?_, ?_, ?_⟩
  · rw [normalize_fields]
    have := h.2.2
    simp only []
    split <;> omega
  · intro p r i t hmem
    rcases List.mem_append.mp hmem with hmem | hmem
    · unfold attachEvents at hmem
      cases ho : env.fabricOpenErr with
      | some e => simp [ho] at hmem
      | none =>
        cases hw : env.fabricWriteErr with
        | some e => simp [ho, hw] at hmem
        | none =>
          simp only [ho, hw, List.mem_cons, List.mem_singleton, Event.poll.injEq, false_or,
            List.not_mem_nil, or_false, reduceCtorEq] at hmem
          obtain ⟨rfl, rfl, rfl, rfl⟩ := hmem
          exact ⟨devicePath_normalize c, rfl, rfl, htr⟩
    · have := hdels _ hmem
      simp [Event.isDelete] at this
  · intro ho hw
    refine ⟨dels, hdels, ?_⟩
    simp only [attachEvents, ho, hw, baseString_normalize, devicePath_normalize, htr, retries]
  · intro h1 h2
    rw [normalize_fields]
    simp [h1, h2, Int.tdiv]

/-- Witness for C9: both counters zero, every call succeeding. -/
theorem Connect_normalization_witness :
    (sampleConnector "nqn.a" "nqn.h").valid
      ∧ (Connect sampleConsts goodEnv (sampleConnector "nqn.a" "nqn.h")
          emptyWorld).connector.RetryCount = 10
      ∧ newEvents emptyWorld
          (Connect sampleConsts goodEnv (sampleConnector "nqn.a" "nqn.h") emptyWorld).world
        = [Event.fabricOpen,
            Event.fabricWrite
              "nqn=nqn.a,transport=TCP,traddr=10.0.0.7,trsvcid=4420,hostnqn=nqn.h",
            Event.poll "/dev/disk/by-id/nvme-uuid.0a1b" 10 1 "TCP"] := by
  have h := Connect_normalization sampleConsts goodEnv (sampleConnector "nqn.a" "nqn.h")
    emptyWorld (by decide)
  refine ⟨by decide, by rw [h.1]; rfl, rfl⟩

/-! ## Oversized subsystem names -/

theorem rollback_long (K : Consts) (c : Connector) (err : Option Err) (w : World)
    (hlen : K.NVMF_NQN_SIZE < len c.TargetNqn) :
    (rollback K c err w).world = w := by
  rw [rollback_world, byNqn_too_long K _ _ w hlen]

theorem normalize_TargetNqn (c : Connector) : (normalize c).TargetNqn = c.TargetNqn := by
  rw [normalize_fields]

theorem normalize_HostNqn (c : Connector) : (normalize c).HostNqn = c.HostNqn := by
  rw [normalize_fields]

theorem len_ascii (cs : List Char) (h : ∀ c ∈ cs, c.toNat < 128) :
    len (String.mk cs) = cs.length := by
  unfold len utf8Bytes
  induction cs with
  | nil => rfl
  | cons c cs ih =>
    have hc : utf8Char c = [c.toNat] := by
      unfold utf8Char
      simp [h c (List.mem_cons_self c cs)]
    rw [List.flatMap_cons, List.length_append, hc]
    have := ih (fun d hd => h d (List.mem_cons_of_mem c hd))
    simp only [] at this
    rw [this]
    simp [Nat.add_comm]

theorem longNqn_too_long : sampleConsts.NVMF_NQN_SIZE < len longNqn := by
  unfold longNqn
  rw [len_ascii]
  · rw [List.length_append, List.length_cons, List.length_replicate, List.length_replicate]
    decide
  · intro c hc
    simp only [List.mem_append, List.mem_cons, List.mem_replicate] at hc
    rcases hc with ⟨-, rfl⟩ | rfl | ⟨-, rfl⟩ <;> decide

set_option maxRecDepth 100000 in
/-- C2, counterexample: with a 301-byte `TargetNqn`, a valid transport and a
kernel that accepts the write, `Connect` writes to the fabric control file,
creates the bookkeeping marker and returns the device path with no error. -/
theorem Connect_accepts_long_nqn :
    sampleConsts.NVMF_NQN_SIZE < len longNqn
      ∧ (Connect sampleConsts goodEnv (sampleConnector longNqn "nqn.h") emptyWorld).result
          = .ok ("/dev/disk/by-id/nvme-uuid.0a1b", none)
      ∧ Event.fabricWrite (baseString (sampleConnector longNqn "nqn.h"))
          ∈ (Connect sampleConsts goodEnv (sampleConnector longNqn "nqn.h") emptyWorld).world.trace
      ∧ (Connect sampleConsts goodEnv (sampleConnector longNqn "nqn.h")
          emptyWorld).world.hasMarker longNqn "nqn.h" = true := by
  refine ⟨longNqn_too_long, rfl, ?_, rfl⟩
  rw [Connect_success sampleConsts goodEnv _ emptyWorld (by decide) rfl rfl none rfl rfl rfl]
  simp [World.create, World.mkdirAll, polled, World.log, baseString_normalize]

theorem long_nqn_rejected_aux (K : Consts) (c : Connector) (w : World)
    (hE : 0 < K.EINVAL) (hlen : K.NVMF_NQN_SIZE < len c.TargetNqn) :
    Disconnect K c w = (w, .ok (some (.disconnectFailed c.TargetNqn))) := by
  unfold Disconnect
  rw [byNqn_too_long K _ _ w hlen]
  simp [hE]

/-- C2, amended: for a connector whose `TargetNqn` is longer than
`NVMF_NQN_SIZE`, `Disconnect` returns an error and leaves the world, trace
included, exactly as it was.  `Connect` has no length check of its own: it
returns an error and leaves the world as it was when its validation of the
transport and the counters fails, and otherwise it opens the fabric control
file and, when the file opens, writes the argument string to it; in no case
does it request the deletion of a controller instance, because its rollback
teardown is refused like `Disconnect`. -/
theorem long_nqn_rejected (K : Consts) (env : Env) (c : Connector) (w : World)
    (hE : 0 < K.EINVAL) (hlen : K.NVMF_NQN_SIZE < len c.TargetNqn) :
    Disconnect K c w = (w, .ok (some (.disconnectFailed c.TargetNqn)))
      ∧ (¬ c.valid →
          (Connect K env c w).world = w
            ∧ ∃ err, (Connect K env c w).result = .ok ("", some err))
      ∧ (c.valid →
          ∃ rest, (Connect K env c w).world.trace = w.trace ++ Event.fabricOpen :: rest
            ∧ (env.fabricOpenErr = none →
                ∃ rest2, rest = Event.fabricWrite (baseString c) :: rest2))
      ∧ ∀ e ∈ newEvents w (Connect K env c w).world, e.isDelete = false := by
  refine ⟨long_nqn_rejected_aux K c w hE hlen, Connect_invalid K env c w,
    Connect_reaches_fabric K env c w, ?_⟩
  · by_cases h : c.valid
    · have hl : K.NVMF_NQN_SIZE < len (normalize c).TargetNqn := by
        rw [normalize_TargetNqn]; exact hlen
      have key : newEvents w (Connect K env c w).world = attachEvents env (normalize c) := by
        apply newEvents_of_trace
        cases ho : env.fabricOpenErr with
        | some e =>
          rw [Connect_open_fail K env c w h e ho]
          simp [attachEvents, ho, World.log]
        | none =>
          cases hw : env.fabricWriteErr with
          | some e =>
            rw [Connect_write_fail K env c w h ho e hw]
            simp [attachEvents, ho, hw, World.log]
          | none =>
            cases hpoll : env.waitForPathToExist (devicePath (normalize c))
                (retries (normalize c)) (normalize c).CheckInterval (normalize c).Transport with
            | mk ex x =>
              cases ex with
              | false =>
                rw [Connect_poll_fail K env c w h ho hw x hpoll, rollback_long K _ _ _ hl,
                  polled_trace env _ w ho hw]
              | true =>
                cases hm : env.mkdirErr with
                | some e =>
                  rw [Connect_mkdir_fail K env c w h ho hw x hpoll e hm,
                    rollback_long K _ _ _ hl, polled_trace env _ w ho hw]
                | none =>
                  cases hc : env.createErr with
                  | some e =>
                    rw [Connect_create_fail K env c w h ho hw x hpoll hm e hc,
                      rollback_long K _ _ _ hl, ← polled_trace env _ w ho hw]
                    rfl
                  | none =>
                    rw [Connect_success K env c w h ho hw x hpoll hm hc,
                      ← polled_trace env _ w ho hw]
                    rfl
      rw [key]
      intro e he
      unfold attachEvents at he
      cases ho : env.fabricOpenErr with
      | some e1 =>
        simp only [ho, List.mem_singleton] at he
        subst he; rfl
      | none =>
        cases hw : env.fabricWriteErr with
        | some e1 =>
          simp only [ho, hw, List.mem_cons, List.mem_singleton, List.not_mem_nil,
            or_false] at he
          rcases he with rfl | rfl <;> rfl
        | none =>
          simp only [ho, hw, List.mem_cons, List.mem_singleton, List.not_mem_nil,
            or_false] at he
          rcases he with rfl | rfl | rfl <;> rfl
    · rw [(Connect_invalid K env c w h).1]
      simp [newEvents]

/-- Witness for the amended C2. -/
theorem long_nqn_rejected_witness :
    (0 : Int) < sampleConsts.EINVAL ∧ sampleConsts.NVMF_NQN_SIZE < len longNqn
      ∧ (Disconnect sampleConsts (sampleConnector longNqn "nqn.h")
          (markedWorld longNqn "nqn.h")).2 = .ok (some (.disconnectFailed longNqn)) :=
  ⟨by decide, longNqn_too_long,
    by rw [(long_nqn_rejected sampleConsts goodEnv (sampleConnector longNqn "nqn.h")
      (markedWorld longNqn "nqn.h") (by decide) longNqn_too_long).1]; rfl⟩

/-! ## Bookkeeping around Connect -/

theorem Disconnect_world (K : Consts) (c : Connector) (w : World) :
    (Disconnect K c w).1 = (disconnectByNqn K c.TargetNqn c.HostNqn w).1 := by
  unfold Disconnect
  split
  · simp_all
  · split <;> simp_all

theorem hasMarker_create (w : World) (nqn hostnqn : String) :
    ((w.mkdirAll nqn).create nqn (b64Encode hostnqn)).hasMarker nqn hostnqn = true := by
  unfold World.hasMarker World.create World.mkdirAll
  simp only [if_true, Option.map_some']
  split <;> simp_all

theorem rollback_result_cases (K : Consts) (c : Connector) (err : Option Err) (w : World) :
    (rollback K c err w).result = .ok ("", err)
      ∨ ∃ p, (rollback K c err w).result = .error p := by
  rw [rollback_result]
  cases (disconnectByNqn K c.TargetNqn c.HostNqn w).2 with
  | error p => exact Or.inr ⟨p, rfl⟩
  | ok r => exact Or.inl rfl

set_option maxRecDepth 100000 in
/-- C5, counterexample: the connector passes validation, the fabric write
succeeds and the poller reports a timeout.  `TargetNqn` has 301 bytes and the
marker of the pair already exists in its directory (left by an earlier
`Connect`).  `Connect` returns the timeout error, but its rollback is refused
by the length guard of `disconnectByNqn`, so the marker still exists when it
returns. -/
theorem Connect_timeout_counterexample :
    (sampleConnector longNqn "nqn.h").valid
      ∧ (markedWorld longNqn "nqn.h").hasMarker longNqn "nqn.h" = true
      ∧ (Connect sampleConsts timeoutEnv (sampleConnector longNqn "nqn.h")
          (markedWorld longNqn "nqn.h")).result = .ok ("", some (Err.poller "timeout"))
      ∧ (Connect sampleConsts timeoutEnv (sampleConnector longNqn "nqn.h")
          (markedWorld longNqn "nqn.h")).world.hasMarker longNqn "nqn.h" = true := by
  have h1 := Connect_poll_fail sampleConsts timeoutEnv (sampleConnector longNqn "nqn.h")
    (markedWorld longNqn "nqn.h") (by decide) rfl rfl (some (Err.poller "timeout")) rfl
  have hl : sampleConsts.NVMF_NQN_SIZE < len (normalize (sampleConnector longNqn "nqn.h")).TargetNqn :=
    longNqn_too_long
  have hm : (markedWorld longNqn "nqn.h").hasMarker longNqn "nqn.h" = true := by
    simp [World.hasMarker, markedWorld]
  refine ⟨by decide, hm, ?_, ?_⟩
  · rw [h1, rollback_result, byNqn_too_long _ _ _ _ hl]
  · rw [h1, rollback_long _ _ _ _ hl]
    exact (hasMarker_congr _ (markedWorld longNqn "nqn.h") _ _ rfl).trans hm

/-- C5, amended: for a connector that passes validation, whose `TargetNqn` is
not longer than `NVMF_NQN_SIZE` and whose fabric write succeeds, if the poller
reports, with its error, that the device path never appeared, then no
bookkeeping marker exists for the pair afterwards, and `Connect` either
returns that error with an empty device path or its rollback panics; when
every listed controller can be scanned it returns. -/
theorem Connect_timeout_no_marker (K : Consts) (env : Env) (c : Connector) (w : World)
    (h : c.valid) (hlen : len c.TargetNqn ≤ K.NVMF_NQN_SIZE)
    (ho : env.fabricOpenErr = none) (hw : env.fabricWriteErr = none) (err : Err)
    (hpoll : env.waitForPathToExist (devicePath (normalize c)) (retries (normalize c))
      (normalize c).CheckInterval (normalize c).Transport = (false, some err)) :
    (Connect K env c w).world.hasMarker c.TargetNqn c.HostNqn = false
      ∧ ((Connect K env c w).result = .ok ("", some err)
          ∨ ∃ p, (Connect K env c w).result = .error p)
      ∧ ((∀ d ∈ w.ctrls ++ env.attached, d.scannable = true) →
          (Connect K env c w).result = .ok ("", some err)) := by
  rw [Connect_poll_fail K env c w h ho hw (some err) hpoll]
  have hl : ¬ len (normalize c).TargetNqn > K.NVMF_NQN_SIZE := by
    rw [normalize_TargetNqn]; omega
  refine ⟨?_, rollback_result_cases _ _ _ _, ?_⟩
  · rw [rollback_world]
    have := byNqn_no_marker K (normalize c).TargetNqn (normalize c).HostNqn
      (polled env (normalize c) w) hl
    simpa only [normalize_TargetNqn, normalize_HostNqn] using this
  · intro hscan
    obtain ⟨r, hr⟩ := byNqn_returns K (normalize c).TargetNqn (normalize c).HostNqn
      (polled env (normalize c) w) hscan
    rw [rollback_result, hr]

/-- Witness for the amended C5: a stale marker is removed by the rollback and
the timeout error is returned. -/
theorem Connect_timeout_no_marker_witness :
    (markedWorld "nqn.a" "nqn.h").hasMarker "nqn.a" "nqn.h" = true
      ∧ (Connect sampleConsts timeoutEnv (sampleConnector "nqn.a" "nqn.h")
          (markedWorld "nqn.a" "nqn.h")).world.hasMarker "nqn.a" "nqn.h" = false
      ∧ (Connect sampleConsts timeoutEnv (sampleConnector "nqn.a" "nqn.h")
          (markedWorld "nqn.a" "nqn.h")).result = .ok ("", some (Err.poller "timeout")) :=
  have h := Connect_timeout_no_marker sampleConsts timeoutEnv (sampleConnector "nqn.a" "nqn.h")
    (markedWorld "nqn.a" "nqn.h") (by decide) (by decide) rfl rfl
    (Err.poller "timeout") rfl
  ⟨rfl, h.1, h.2.2 (by decide)⟩

theorem Connect_result_path (K : Consts) (env : Env) (c : Connector) (w : World)
    (path : String) (hpath : path ≠ "") (hok : (Connect K env c w).result = .ok (path, none)) :
    c.valid ∧ (Connect K env c w).world
      = ((polled env (normalize c) w).mkdirAll c.TargetNqn).create c.TargetNqn
          (b64Encode c.HostNqn) := by
  have hno : ∀ (err : Option Err) (w2 : World),
      (rollback K (normalize c) err w2).result ≠ .ok (path, none) := by
    intro err w2 hr
    rcases rollback_result_cases K (normalize c) err w2 with h1 | ⟨p, h1⟩
    · rw [h1] at hr
      injection hr with hr
      injection hr with hr1 _
      exact hpath hr1.symm
    · rw [h1] at hr
      cases hr
  by_cases h : c.valid
  · refine ⟨h, ?_⟩
    cases ho : env.fabricOpenErr with
    | some e =>
      rw [Connect_open_fail K env c w h e ho] at hok
      simp at hok
    | none =>
      cases hw : env.fabricWriteErr with
      | some e =>
        rw [Connect_write_fail K env c w h ho e hw] at hok
        simp at hok
      | none =>
        cases hpoll : env.waitForPathToExist (devicePath (normalize c))
            (retries (normalize c)) (normalize c).CheckInterval (normalize c).Transport with
        | mk ex x =>
          cases ex with
          | false =>
            rw [Connect_poll_fail K env c w h ho hw x hpoll] at hok
            exact absurd hok (hno _ _)
          | true =>
            cases hm : env.mkdirErr with
            | some e =>
              rw [Connect_mkdir_fail K env c w h ho hw x hpoll e hm] at hok
              exact absurd hok (hno _ _)
            | none =>
              cases hc : env.createErr with
              | some e =>
                rw [Connect_create_fail K env c w h ho hw x hpoll hm e hc] at hok
                exact absurd hok (hno _ _)
              | none =>
                rw [Connect_success K env c w h ho hw x hpoll hm hc, normalize_TargetNqn,
                  normalize_HostNqn]
  · obtain ⟨-, err, he⟩ := Connect_invalid K env c w h
    rw [he] at hok
    simp at hok

set_option maxRecDepth 100000 in
/-- C6, counterexample: `TargetNqn` has 301 bytes, in two path components of
200 and 100 bytes.  With a kernel that accepts the write, `Connect` creates
the directory and the marker and returns the device path with no error; the
following `Disconnect` for the same pair is refused by the length guard,
returns an error, and the marker still exists. -/
theorem Disconnect_keeps_long_nqn_marker :
    (Connect sampleConsts goodEnv (sampleConnector longNqn "nqn.h") emptyWorld).result
        = .ok ("/dev/disk/by-id/nvme-uuid.0a1b", none)
      ∧ (Disconnect sampleConsts (sampleConnector longNqn "nqn.h")
          (Connect sampleConsts goodEnv (sampleConnector longNqn "nqn.h") emptyWorld).world).2
        = .ok (some (.disconnectFailed longNqn))
      ∧ (Disconnect sampleConsts (sampleConnector longNqn "nqn.h")
          (Connect sampleConsts goodEnv (sampleConnector longNqn "nqn.h")
            emptyWorld).world).1.hasMarker longNqn "nqn.h" = true := by
  have hd := fun w => (long_nqn_rejected_aux sampleConsts (sampleConnector longNqn "nqn.h") w
    (by decide) longNqn_too_long)
  refine ⟨rfl, ?_, ?_⟩
  · rw [hd]; rfl
  · rw [hd]; rfl

/-- C6, amended: for a connector whose `TargetNqn` is not longer than
`NVMF_NQN_SIZE`, after `Connect` returns successfully (a device path and a
nil error) the marker named by the base 64 encoding of `HostNqn` exists in
the directory of `TargetNqn`; after a following `Disconnect` with a connector
for the same pair it no longer exists. -/
theorem Connect_then_Disconnect_marker (K : Consts) (env : Env) (c c2 : Connector)
    (w : World) (hlen : len c.TargetNqn ≤ K.NVMF_NQN_SIZE)
    (hA : c2.TargetNqn = c.TargetNqn) (hH : c2.HostNqn = c.HostNqn)
    (path : String) (hpath : path ≠ "")
    (hok : (Connect K env c w).result = .ok (path, none)) :
    (Connect K env c w).world.hasMarker c.TargetNqn c.HostNqn = true
      ∧ (∃ fs, (Connect K env c w).world.run c.TargetNqn = some fs
          ∧ b64Encode c.HostNqn ∈ fs)
      ∧ (Disconnect K c2 (Connect K env c w).world).1.hasMarker c.TargetNqn c.HostNqn
          = false := by
  obtain ⟨-, hw⟩ := Connect_result_path K env c w path hpath hok
  have hm : (Connect K env c w).world.hasMarker c.TargetNqn c.HostNqn = true := by
    rw [hw]; exact hasMarker_create _ _ _
  refine ⟨hm, ?_, ?_⟩
  · unfold World.hasMarker at hm
    cases hr : (Connect K env c w).world.run c.TargetNqn with
    | none => simp [hr] at hm
    | some fs =>
      refine ⟨fs, rfl, ?_⟩
      simpa [hr] using hm
  · rw [Disconnect_world, hA, hH]
    exact byNqn_no_marker K _ _ _ (by omega)

/-- Witness for the amended C6. -/
theorem Connect_then_Disconnect_marker_witness :
    (Connect sampleConsts goodEnv (sampleConnector "nqn.a" "nqn.h") emptyWorld).result
        = .ok ("/dev/disk/by-id/nvme-uuid.0a1b", none)
      ∧ (Connect sampleConsts goodEnv (sampleConnector "nqn.a" "nqn.h")
          emptyWorld).world.hasMarker "nqn.a" "nqn.h" = true
      ∧ (Disconnect sampleConsts (sampleConnector "nqn.a" "nqn.h")
          (Connect sampleConsts goodEnv (sampleConnector "nqn.a" "nqn.h")
            emptyWorld).world).1.hasMarker "nqn.a" "nqn.h" = false :=
  have h := Connect_then_Disconnect_marker sampleConsts goodEnv
    (sampleConnector "nqn.a" "nqn.h") (sampleConnector "nqn.a" "nqn.h") emptyWorld
    (by decide) rfl rfl "/dev/disk/by-id/nvme-uuid.0a1b" (by decide) rfl
  ⟨rfl, h.1, h.2.2⟩

/-! ## Failures inside the scan -/

/-- Apart from a panic, no failure inside a step ends the host-scoped scan:
when every listed instance can be scanned (its `subsysnqn` file opens and no
attribute file is empty), a read failure, an unreadable `hostnqn` file or a
failed delete request counts as no match, every instance is processed, and the
value returned is `ret` plus the number of instances that matched and were
deleted. -/
theorem hostScan_of_scannable (nqn hostnqn : String) (ds : List Controller) (w : World)
    (ret : Int) (h : ∀ d ∈ ds, d.scannable = true) :
    scan (disconnectSubsysWithHostNqn nqn hostnqn) ds w ret
      = (scanned (Controller.matchesHost nqn hostnqn) ds w,
          .ok (ret + removedCount (Controller.matchesHost nqn hostnqn) ds)) := by
  have hp := firstPanic_host_of_scannable nqn hostnqn ds h
  rw [disconnectSubsysWithHostNqn_eq_probe, scan_eq, hp, processed_of_firstPanic_none _ _ hp,
    verdictHost_isDelete]

/-- C10, failing input: the listing holds `nvme0`, whose `subsysnqn` file
cannot be opened, and then `nvme1`, which matches the pair.  The error branch
of `disconnectSubsysWithHostNqn` calls `file.Name()` on the nil file, so the
scan ends in a panic on `nvme0`: no delete request is issued for `nvme1` and it
stays in the controller table. -/
theorem open_failure_aborts_scan :
    (Disconnect sampleConsts (sampleConnector "nqn.a" "nqn.h")
        (worldOf [("nqn.a", [b64Encode "nqn.h"])]
          [ctrlUnopenable "nvme0", ctrl "nvme1" "nqn.a" "nqn.h"])).2
        = .error .nilDereference
      ∧ (Disconnect sampleConsts (sampleConnector "nqn.a" "nqn.h")
          (worldOf [("nqn.a", [b64Encode "nqn.h"])]
            [ctrlUnopenable "nvme0", ctrl "nvme1" "nqn.a" "nqn.h"])).1.trace = []
      ∧ (Disconnect sampleConsts (sampleConnector "nqn.a" "nqn.h")
          (worldOf [("nqn.a", [b64Encode "nqn.h"])]
            [ctrlUnopenable "nvme0", ctrl "nvme1" "nqn.a" "nqn.h"])).1.ctrls
        = [ctrlUnopenable "nvme0", ctrl "nvme1" "nqn.a" "nqn.h"] :=
  ⟨rfl, rfl, rfl⟩

/-! ## Disconnect twice -/

theorem Disconnect_result (K : Consts) (c : Connector) (w : World) :
    (Disconnect K c w).2
      = match (disconnectByNqn K c.TargetNqn c.HostNqn w).2 with
        | .error p => .error p
        | .ok ret => if ret < 0 then .ok (some (.disconnectFailed c.TargetNqn)) else .ok none := by
  unfold Disconnect
  cases h : disconnectByNqn K c.TargetNqn c.HostNqn w with
  | mk w1 res =>
    cases res with
    | error p => rfl
    | ok ret => by_cases hlt : ret < 0 <;> simp [hlt]

/-- A directory that still holds markers after the removal of one is left as
it is by a second removal of the same marker. -/
theorem remove_again (w w1 : World) (nqn file : String) (ms : List String)
    (h : (w.remove nqn file).run nqn = some ms) (hne : ms ≠ [])
    (h1 : w1.run = (w.remove nqn file).run) :
    (w1.remove nqn file).run nqn = some ms := by
  have hw1 : w1.run nqn = some ms := by rw [h1, h]
  rw [remove_run_of_nonempty w1 nqn file ms hw1 hne]
  rcases remove_run_cases w nqn file with h0 | ⟨fs, -, h0⟩
  · rw [h0] at h; cases h
  · rw [h0] at h
    injection h with h
    rw [← h, List.filter_filter]
    simp

theorem survivors_subset (m : Controller → Bool) (ds cs : List Controller) :
    ∀ d ∈ survivors m ds cs, d ∈ cs := by
  intro d hd
  exact ((mem_survivors m ds cs d).mp hd).1

theorem firstPanic_of_subset (v : Controller → Verdict) (ds cs : List Controller)
    (hsub : ∀ d ∈ cs, d ∈ ds) (h : firstPanic v ds = none) : firstPanic v cs = none := by
  rw [firstPanic_eq_none] at h ⊢
  exact fun d hd => h d (hsub d hd)

/-- What a first `disconnectByNqn` that returned a non-negative value leaves:
a readable listing that scans without panic, and a directory that either
still holds markers or was removed. -/
theorem byNqn_ok_inv (K : Consts) (nqn hostnqn : String) (w : World)
    (hE : 0 < K.EINVAL) (hN : 0 < K.ENOENT) (r : Int) (hr : 0 ≤ r)
    (h : (disconnectByNqn K nqn hostnqn w).2 = .ok r) :
    ¬ len nqn > K.NVMF_NQN_SIZE
      ∧ ∃ cs, (disconnectByNqn K nqn hostnqn w).1.sys = some cs
        ∧ firstPanic (verdictHost nqn hostnqn) cs = none
        ∧ (((disconnectByNqn K nqn hostnqn w).1.run = (w.remove nqn (b64Encode hostnqn)).run
              ∧ ∃ ms, (w.remove nqn (b64Encode hostnqn)).run nqn = some ms ∧ ms ≠ [])
            ∨ (disconnectByNqn K nqn hostnqn w).1.run nqn = none) := by
  by_cases hlen : len nqn > K.NVMF_NQN_SIZE
  · rw [byNqn_too_long K nqn hostnqn w hlen] at h
    simp only [Except.ok.injEq] at h
    omega
  refine ⟨hlen, ?_⟩
  cases hsys : w.sys with
  | none =>
    rw [byNqn_no_listing K nqn hostnqn w hlen hsys] at h
    simp only [Except.ok.injEq] at h
    omega
  | some ds =>
    have hs1 : (w.remove nqn (b64Encode hostnqn)).sys = some ds := hsys
    cases hp : firstPanic (verdictHost nqn hostnqn) ds with
    | some p =>
      rw [byNqn_host_panic K nqn hostnqn w hlen ds hsys p hp] at h
      cases h
    | none =>
      have hsurv : ∀ m pre, firstPanic (verdictHost nqn hostnqn) (survivors m pre ds) = none :=
        fun m pre => firstPanic_of_subset _ ds _ (survivors_subset m pre ds) hp
      cases hrun : (w.remove nqn (b64Encode hostnqn)).run nqn with
      | none =>
        rw [byNqn_no_dir K nqn hostnqn w hlen ds hsys hp hrun] at h
        simp only [Except.ok.injEq] at h
        omega
      | some ms =>
        by_cases hms : ms = []
        · subst hms
          by_cases hret : removedCount (Controller.matchesHost nqn hostnqn) ds = 0
          · cases hp2 : firstPanic (verdictSubsys nqn) ds with
            | some p =>
              rw [byNqn_fallback_panic K nqn hostnqn w hlen ds hsys hp hrun hret p hp2] at h
              cases h
            | none =>
              rw [byNqn_fallback K nqn hostnqn w hlen ds hsys hp hrun hret hp2]
              refine ⟨survivors (Controller.matchesSubsys nqn) ds
                (survivors (Controller.matchesHost nqn hostnqn) ds ds), ?_, ?_, Or.inr ?_⟩
              · simp [scanned, World.removeAll, hs1]
              · exact firstPanic_of_subset _ ds _
                  (fun d hd => survivors_subset _ _ _ d (survivors_subset _ _ _ d hd)) hp
              · simp [World.removeAll]
          · rw [byNqn_host_removed K nqn hostnqn w hlen ds hsys hp hrun hret]
            refine ⟨survivors (Controller.matchesHost nqn hostnqn) ds ds, ?_, hsurv _ _,
              Or.inr ?_⟩
            · simp [scanned, World.removeAll, hs1]
            · simp [World.removeAll]
        · rw [byNqn_others_remain K nqn hostnqn w hlen ds hsys hp ms hrun hms]
          refine ⟨survivors (Controller.matchesHost nqn hostnqn) ds ds, ?_, hsurv _ _,
            Or.inl ⟨rfl, ms, rfl, hms⟩⟩
          simp [scanned, hs1]

/-- C1, counterexample: one recorded session and its controller instance.
The first `Disconnect` deletes the instance, removes the marker and the now
empty directory, and returns no error; the second, on the resulting state,
fails on reading the absent directory and returns an error. -/
theorem Disconnect_twice_counterexample :
    (Disconnect sampleConsts (sampleConnector "nqn.a" "nqn.h")
        (worldOf [("nqn.a", [b64Encode "nqn.h"])] [ctrl "nvme0" "nqn.a" "nqn.h"])).2 = .ok none
      ∧ (Disconnect sampleConsts (sampleConnector "nqn.a" "nqn.h")
          (Disconnect sampleConsts (sampleConnector "nqn.a" "nqn.h")
            (worldOf [("nqn.a", [b64Encode "nqn.h"])] [ctrl "nvme0" "nqn.a" "nqn.h"])).1).2
        = .ok (some (.disconnectFailed "nqn.a")) :=
  ⟨rfl, rfl⟩

/-- C1, amended: when a first `Disconnect` returns no error, an immediately
following second `Disconnect` with the same connector returns no error if the
bookkeeping directory of `TargetNqn` still exists after the first call (other
hosts hold markers in it), and returns an error if the first call removed the
directory. -/
theorem Disconnect_twice (K : Consts) (c : Connector) (w : World)
    (hE : 0 < K.EINVAL) (hN : 0 < K.ENOENT) (h1 : (Disconnect K c w).2 = .ok none) :
    ((Disconnect K c w).1.run c.TargetNqn ≠ none →
        (Disconnect K c (Disconnect K c w).1).2 = .ok none)
      ∧ ((Disconnect K c w).1.run c.TargetNqn = none →
        (Disconnect K c (Disconnect K c w).1).2
          = .ok (some (.disconnectFailed c.TargetNqn))) := by
  rw [Disconnect_result] at h1
  rw [Disconnect_world]
  cases hr : (disconnectByNqn K c.TargetNqn c.HostNqn w).2 with
  | error p => rw [hr] at h1; cases h1
  | ok r =>
    rw [hr] at h1
    have hr0 : 0 ≤ r := by
      by_contra hneg
      have : r < 0 := by omega
      simp [this] at h1
    obtain ⟨hlen, cs, hcs, hp, hcase⟩ :=
      byNqn_ok_inv K c.TargetNqn c.HostNqn w hE hN r hr0 hr
    rcases hcase with ⟨hrun, ms, hms, hne⟩ | hnone
    · have h2 : ((disconnectByNqn K c.TargetNqn c.HostNqn w).1.remove c.TargetNqn
          (b64Encode c.HostNqn)).run c.TargetNqn = some ms :=
        remove_again w _ _ _ ms hms hne hrun
      constructor
      · intro _
        rw [Disconnect_result, byNqn_others_remain K _ _ _ hlen cs hcs hp ms h2 hne]
        have := removedCount_nonneg (Controller.matchesHost c.TargetNqn c.HostNqn) cs
        simp only []
        rw [if_neg (by omega)]
      · intro hcontra
        rw [hrun, hms] at hcontra
        cases hcontra
    · have h2 : ((disconnectByNqn K c.TargetNqn c.HostNqn w).1.remove c.TargetNqn
          (b64Encode c.HostNqn)).run c.TargetNqn = none := by
        rcases remove_run_cases (disconnectByNqn K c.TargetNqn c.HostNqn w).1 c.TargetNqn
          (b64Encode c.HostNqn) with h0 | ⟨fs, h0, -⟩
        · exact h0
        · rw [hnone] at h0; cases h0
      constructor
      · intro hcontra
        exact absurd hnone hcontra
      · intro _
        rw [Disconnect_result, byNqn_no_dir K _ _ _ hlen cs hcs hp h2]
        simp only []
        rw [if_pos (by omega)]

/-- Witness for the amended C1: another host still holds a marker, so the
directory survives the first call and the second call succeeds. -/
theorem Disconnect_twice_witness :
    (Disconnect sampleConsts (sampleConnector "nqn.a" "nqn.h")
        (worldOf [("nqn.a", [b64Encode "nqn.h", b64Encode "nqn.other"])]
          [ctrl "nvme0" "nqn.a" "nqn.h"])).2 = .ok none
      ∧ (Disconnect sampleConsts (sampleConnector "nqn.a" "nqn.h")
          (Disconnect sampleConsts (sampleConnector "nqn.a" "nqn.h")
            (worldOf [("nqn.a", [b64Encode "nqn.h", b64Encode "nqn.other"])]
              [ctrl "nvme0" "nqn.a" "nqn.h"])).1).2 = .ok none :=
  ⟨rfl, (Disconnect_twice sampleConsts (sampleConnector "nqn.a" "nqn.h")
    (worldOf [("nqn.a", [b64Encode "nqn.h", b64Encode "nqn.other"])]
      [ctrl "nvme0" "nqn.a" "nqn.h"]) (by decide) (by decide) rfl).1 (by
        intro h
        have : (Disconnect sampleConsts (sampleConnector "nqn.a" "nqn.h")
          (worldOf [("nqn.a", [b64Encode "nqn.h", b64Encode "nqn.other"])]
            [ctrl "nvme0" "nqn.a" "nqn.h"])).1.run "nqn.a"
              = some [b64Encode "nqn.other"] := rfl
        cases this.symm.trans h)⟩

/-! ## Fallback teardown -/

theorem requestsFor_of_none (m : Controller → Bool) (ds : List Controller)
    (h : ∀ d ∈ ds, m d = false) : requestsFor m ds = [] := by
  unfold requestsFor
  rw [List.map_eq_nil_iff, List.filter_eq_nil_iff]
  intro d hd
  simp [h d hd]

theorem removedCount_of_none (m : Controller → Bool) (ds : List Controller)
    (h : ∀ d ∈ ds, m d = true → d.deleteOk = false) : removedCount m ds = 0 := by
  unfold removedCount
  have : List.filter (fun d => m d && d.deleteOk) ds = [] := by
    rw [List.filter_eq_nil_iff]
    intro d hd
    cases hm : m d with
    | false => simp
    | true => simp [h d hd hm]
  rw [this]
  rfl

theorem sys_of_mem_ctrls (w : World) (k : Controller) (hk : k ∈ w.ctrls) :
    w.sys = some w.ctrls := by
  unfold World.ctrls at hk ⊢
  cases hs : w.sys with
  | none => rw [hs] at hk; simp at hk
  | some ds => rfl

/-- C7, counterexample: a controller of a kernel without `hostnqn` attribute
exposes the target subsystem-name and no marker of another host remains.
(1) When the bookkeeping directory does not exist, `Disconnect` stops at the
failed directory read: it returns an error and requests no deletion.  (2) When
`TargetNqn` has 301 bytes (in two path components), `Disconnect` is refused
before any scan.  (3) When `HostNqn` is empty and the directory exists and is
empty, `os.Remove` removes the directory itself, the directory read fails and
`Disconnect` returns an error without a delete request. -/
theorem fallback_counterexample :
    ((Disconnect sampleConsts (sampleConnector "nqn.a" "nqn.h")
          (worldOf [] [ctrlNoHost "nvme0" "nqn.a"])).2 = .ok (some (.disconnectFailed "nqn.a"))
      ∧ (Disconnect sampleConsts (sampleConnector "nqn.a" "nqn.h")
          (worldOf [] [ctrlNoHost "nvme0" "nqn.a"])).1.trace = [])
    ∧ (Disconnect sampleConsts (sampleConnector longNqn "nqn.h")
          (worldOf [(longNqn, [b64Encode "nqn.h"])] [ctrlNoHost "nvme0" longNqn])).1.trace
        = []
    ∧ ((Disconnect sampleConsts (sampleConnector "nqn.a" "")
          (worldOf [("nqn.a", [])] [ctrlNoHost "nvme0" "nqn.a"])).2
          = .ok (some (.disconnectFailed "nqn.a"))
      ∧ (Disconnect sampleConsts (sampleConnector "nqn.a" "")
          (worldOf [("nqn.a", [])] [ctrlNoHost "nvme0" "nqn.a"])).1.trace = []) := by
  refine ⟨⟨rfl, rfl⟩, ?_, rfl, rfl⟩
  rw [long_nqn_rejected_aux sampleConsts _ _ (by decide) longNqn_too_long]
  rfl

theorem b64Encode_ne_empty (s : String) (h : s ≠ "") : b64Encode s ≠ "" := by
  intro e
  exact h (b64Encode_injective s "" (e.trans rfl))

/-- C7, amended: when `TargetNqn` is not longer than `NVMF_NQN_SIZE`,
`HostNqn` is not empty, the bookkeeping directory of `TargetNqn` exists and
holds no marker of another host, every listed controller can be scanned, no
controller instance exposes a host-identity equal to `HostNqn` and some
instance exposes a subsystem-name equal to `TargetNqn`, then `Disconnect`
requests the deletion of exactly the instances whose subsystem-name equals
`TargetNqn`, all of them, removes the directory and returns no error. -/
theorem fallback_teardown (K : Consts) (c : Connector) (w : World)
    (hlen : len c.TargetNqn ≤ K.NVMF_NQN_SIZE) (hH : c.HostNqn ≠ "")
    (hscan : ∀ d ∈ w.ctrls, d.scannable = true)
    (hhost : ∀ d ∈ w.ctrls, d.hostName ≠ some c.HostNqn)
    (k : Controller) (hk : k ∈ w.ctrls) (hks : k.subsysName = some c.TargetNqn)
    (fs : List String) (hdir : w.run c.TargetNqn = some fs)
    (hfs : ∀ f ∈ fs, f = b64Encode c.HostNqn) :
    newEvents w (Disconnect K c w).1
        = requestsFor (Controller.matchesSubsys c.TargetNqn) w.ctrls
      ∧ (∀ d ∈ w.ctrls, d.subsysName = some c.TargetNqn →
          Event.deleteRequest d.name ∈ newEvents w (Disconnect K c w).1)
      ∧ Event.deleteRequest k.name ∈ newEvents w (Disconnect K c w).1
      ∧ (Disconnect K c w).2 = .ok none
      ∧ (Disconnect K c w).1.run c.TargetNqn = none := by
  have hl : ¬ len c.TargetNqn > K.NVMF_NQN_SIZE := by omega
  have hsys := sys_of_mem_ctrls w k hk
  have hp := firstPanic_host_of_scannable c.TargetNqn c.HostNqn w.ctrls hscan
  have hp2 := firstPanic_subsys_of_scannable c.TargetNqn w.ctrls hscan
  have hmh : ∀ d ∈ w.ctrls, Controller.matchesHost c.TargetNqn c.HostNqn d = false := by
    intro d hd
    cases hm : Controller.matchesHost c.TargetNqn c.HostNqn d with
    | false => rfl
    | true => exact absurd ((matchesHost_iff _ _ _).mp hm).2 (hhost d hd)
  have hret : removedCount (Controller.matchesHost c.TargetNqn c.HostNqn) w.ctrls = 0 :=
    removedCount_of_none _ _ (fun d hd hm => by rw [hmh d hd] at hm; cases hm)
  have hrun : (w.remove c.TargetNqn (b64Encode c.HostNqn)).run c.TargetNqn = some [] := by
    rw [remove_run_of_named w _ _ (b64Encode_ne_empty _ hH), hdir]
    simp only [Option.map_some', Option.some.injEq, List.filter_eq_nil_iff]
    intro f hf
    simp [hfs f hf]
  have hev : newEvents w (Disconnect K c w).1
      = requestsFor (Controller.matchesSubsys c.TargetNqn) w.ctrls := by
    apply newEvents_of_trace
    rw [Disconnect_world, byNqn_fallback K _ _ w hl w.ctrls hsys hp hrun hret hp2]
    simp [scanned, World.removeAll, World.remove, requestsFor_of_none _ _ hmh]
  have hall : ∀ d ∈ w.ctrls, d.subsysName = some c.TargetNqn →
      Event.deleteRequest d.name ∈ newEvents w (Disconnect K c w).1 := by
    intro d hd hs
    rw [hev]
    exact (mem_requestsFor _ _ _).mpr ⟨d, hd, (matchesSubsys_iff _ _).mpr hs, rfl⟩
  refine ⟨hev, hall, hall k hk hks, ?_, ?_⟩
  · rw [Disconnect_result, byNqn_fallback K _ _ w hl w.ctrls hsys hp hrun hret hp2]
    have := removedCount_nonneg (Controller.matchesSubsys c.TargetNqn) w.ctrls
    simp only []
    rw [if_neg (by omega)]
  · rw [Disconnect_world, byNqn_fallback K _ _ w hl w.ctrls hsys hp hrun hret hp2]
    simp [World.removeAll]

/-- Witness for the amended C7: two instances of the subsystem on a kernel
without `hostnqn` attribute and one instance of another subsystem. -/
theorem fallback_teardown_witness :
    newEvents
        (worldOf [("nqn.a", [b64Encode "nqn.h"])]
          [ctrlNoHost "nvme0" "nqn.a", ctrl "nvme1" "nqn.b" "nqn.x", ctrlNoHost "nvme2" "nqn.a"])
        (Disconnect sampleConsts (sampleConnector "nqn.a" "nqn.h")
          (worldOf [("nqn.a", [b64Encode "nqn.h"])]
            [ctrlNoHost "nvme0" "nqn.a", ctrl "nvme1" "nqn.b" "nqn.x",
              ctrlNoHost "nvme2" "nqn.a"])).1
      = [Event.deleteRequest "nvme0", Event.deleteRequest "nvme2"] :=
  (fallback_teardown sampleConsts (sampleConnector "nqn.a" "nqn.h")
    (worldOf [("nqn.a", [b64Encode "nqn.h"])]
      [ctrlNoHost "nvme0" "nqn.a", ctrl "nvme1" "nqn.b" "nqn.x", ctrlNoHost "nvme2" "nqn.a"])
    (by decide) (by decide) (by decide) (by decide) (ctrlNoHost "nvme0" "nqn.a") (by decide) rfl
    [b64Encode "nqn.h"] rfl (by decide)).1.trans rfl

/-! ## Two hosts on one subsystem -/

/-- C3, counterexample: the directory of `nqn.a` holds the markers of
`nqn.h1` and `nqn.h2`.  (1) When the instance exposes host-identity `nqn.h1`,
the `Disconnect` for `nqn.h1` requests its deletion although the directory
stays non-empty.  (2) When `nvme0` exposes no host-identity and `nvme1` exposes
`nqn.h2`, the second `Disconnect`, for `nqn.h2`, deletes `nvme1` in its
host-scoped pass and never requests the deletion of `nvme0`.  (3) With a
301-byte subsystem name (two path components) the `Disconnect` for `nqn.h1` removes no marker. -/
theorem two_hosts_counterexample :
    (Disconnect sampleConsts (sampleConnector "nqn.a" "nqn.h1")
        (worldOf [("nqn.a", [b64Encode "nqn.h1", b64Encode "nqn.h2"])]
          [ctrl "nvme0" "nqn.a" "nqn.h1"])).1.trace = [Event.deleteRequest "nvme0"]
      ∧ (Disconnect sampleConsts (sampleConnector "nqn.a" "nqn.h2")
          (Disconnect sampleConsts (sampleConnector "nqn.a" "nqn.h1")
            (worldOf [("nqn.a", [b64Encode "nqn.h1", b64Encode "nqn.h2"])]
              [ctrlNoHost "nvme0" "nqn.a", ctrl "nvme1" "nqn.a" "nqn.h2"])).1).1.trace
          = [Event.deleteRequest "nvme1"]
      ∧ (Disconnect sampleConsts (sampleConnector longNqn "nqn.h1")
          (worldOf [(longNqn, [b64Encode "nqn.h1", b64Encode "nqn.h2"])]
            [ctrlNoHost "nvme0" longNqn])).1.hasMarker longNqn "nqn.h1" = true := by
  refine ⟨rfl, rfl, ?_⟩
  rw [long_nqn_rejected_aux sampleConsts _ _ (by decide) longNqn_too_long]
  simp [World.hasMarker, worldOf, sampleConnector, List.lookup]

/-- C3, amended: the directory of subsystem A (a name of admissible length)
holds markers for two distinct host identities H1 and H2, every listed
controller can be scanned and an instance `k` with subsystem-name A is listed.
Then `Disconnect` for (A, H1) returns no error, removes only H1's marker
(H2's marker and the directory stay, every other directory is as it was) and
requests the deletion of exactly the instances that expose subsystem-name A
and host-identity H1: of none when no instance exposes H1, and then the
controller table is unchanged.  In that case, when the directory held no
third marker, the following `Disconnect` for (A, H2) requests the deletion of
`k` provided `k` exposes host-identity H2 or no instance that exposes (A, H2)
was deleted, so that the fallback pass runs. -/
theorem Disconnect_two_hosts (K : Consts) (c1 c2 : Connector) (w : World)
    (hA : c2.TargetNqn = c1.TargetNqn) (hH : c1.HostNqn ≠ c2.HostNqn)
    (hlen : len c1.TargetNqn ≤ K.NVMF_NQN_SIZE)
    (hscan : ∀ d ∈ w.ctrls, d.scannable = true)
    (fs : List String) (hdir : w.run c1.TargetNqn = some fs)
    (_hm1 : b64Encode c1.HostNqn ∈ fs) (hm2 : b64Encode c2.HostNqn ∈ fs)
    (k : Controller) (hk : k ∈ w.ctrls) (hks : k.subsysName = some c1.TargetNqn) :
    (Disconnect K c1 w).2 = .ok none
      ∧ (Disconnect K c1 w).1.run c1.TargetNqn
          = some (fs.filter (fun f => f ≠ b64Encode c1.HostNqn))
      ∧ b64Encode c2.HostNqn ∈ fs.filter (fun f => f ≠ b64Encode c1.HostNqn)
      ∧ (∀ d, d ≠ c1.TargetNqn → (Disconnect K c1 w).1.run d = w.run d)
      ∧ newEvents w (Disconnect K c1 w).1
          = requestsFor (Controller.matchesHost c1.TargetNqn c1.HostNqn) w.ctrls
      ∧ ((∀ d ∈ w.ctrls, d.hostName ≠ some c1.HostNqn) →
          newEvents w (Disconnect K c1 w).1 = []
            ∧ (Disconnect K c1 w).1.ctrls = w.ctrls
            ∧ ((∀ f ∈ fs, f = b64Encode c1.HostNqn ∨ f = b64Encode c2.HostNqn) →
                (k.hostName = some c2.HostNqn
                  ∨ ∀ d ∈ w.ctrls, d.matchesHost c1.TargetNqn c2.HostNqn = true →
                      d.deleteOk = false) →
                Event.deleteRequest k.name
                  ∈ newEvents (Disconnect K c1 w).1
                      (Disconnect K c2 (Disconnect K c1 w).1).1)) := by
  have hl : ¬ len c1.TargetNqn > K.NVMF_NQN_SIZE := by omega
  have hsys := sys_of_mem_ctrls w k hk
  have hp := firstPanic_host_of_scannable c1.TargetNqn c1.HostNqn w.ctrls hscan
  have hne : b64Encode c2.HostNqn ≠ b64Encode c1.HostNqn :=
    fun e => hH (b64Encode_injective _ _ e).symm
  have hmem : b64Encode c2.HostNqn ∈ fs.filter (fun f => f ≠ b64Encode c1.HostNqn) := by
    simp [List.mem_filter, hm2, hne]
  have hrun : (w.remove c1.TargetNqn (b64Encode c1.HostNqn)).run c1.TargetNqn
      = some (fs.filter (fun f => f ≠ b64Encode c1.HostNqn)) :=
    remove_run_of_nonempty w _ _ fs hdir (List.ne_nil_of_mem hm2)
  have hnonempty : fs.filter (fun f => f ≠ b64Encode c1.HostNqn) ≠ [] :=
    List.ne_nil_of_mem hmem
  have hby := byNqn_others_remain K c1.TargetNqn c1.HostNqn w hl w.ctrls hsys hp _ hrun
    hnonempty
  have hworld : (Disconnect K c1 w).1
      = scanned (Controller.matchesHost c1.TargetNqn c1.HostNqn) w.ctrls
          (w.remove c1.TargetNqn (b64Encode c1.HostNqn)) := by
    rw [Disconnect_world, hby]
  have hev : newEvents w (Disconnect K c1 w).1
      = requestsFor (Controller.matchesHost c1.TargetNqn c1.HostNqn) w.ctrls := by
    apply newEvents_of_trace
    rw [hworld]
    rfl
  refine ⟨?_, ?_, hmem, ?_, hev, ?_⟩
  · rw [Disconnect_result, hby]
    have := removedCount_nonneg (Controller.matchesHost c1.TargetNqn c1.HostNqn) w.ctrls
    simp only []
    rw [if_neg (by omega)]
  · rw [hworld]; exact hrun
  · intro d hd
    rw [hworld]
    exact remove_run_other w _ _ d hd
  · intro hno
    have hmh : ∀ d ∈ w.ctrls, Controller.matchesHost c1.TargetNqn c1.HostNqn d = false := by
      intro d hd
      cases hm : Controller.matchesHost c1.TargetNqn c1.HostNqn d with
      | false => rfl
      | true => exact absurd ((matchesHost_iff _ _ _).mp hm).2 (hno d hd)
    have hreq := requestsFor_of_none _ _ hmh
    have hrc : removedCount (Controller.matchesHost c1.TargetNqn c1.HostNqn) w.ctrls = 0 :=
      removedCount_of_none _ _ (fun d hd hm => by rw [hmh d hd] at hm; cases hm)
    have hsys1 : (Disconnect K c1 w).1.sys = some w.ctrls := by
      rw [hworld]
      simp [scanned, World.remove, hsys, survivors_of_removedCount_zero _ _ _ hrc]
    have hctrls1 : (Disconnect K c1 w).1.ctrls = w.ctrls := by
      simp [World.ctrls, hsys1]
    refine ⟨by rw [hev, hreq], hctrls1, ?_⟩
    intro hfs hcond
    have hl2 : ¬ len c1.TargetNqn > K.NVMF_NQN_SIZE := hl
    have hp1 := firstPanic_host_of_scannable c1.TargetNqn c2.HostNqn w.ctrls hscan
    have hp2 := firstPanic_subsys_of_scannable c1.TargetNqn w.ctrls hscan
    have hrun2 : ((Disconnect K c1 w).1.remove c1.TargetNqn (b64Encode c2.HostNqn)).run
        c1.TargetNqn = some [] := by
      have hrun1 : (Disconnect K c1 w).1.run c1.TargetNqn
          = some (fs.filter (fun f => f ≠ b64Encode c1.HostNqn)) := by
        rw [hworld]; exact hrun
      rw [remove_run_of_nonempty _ _ _ _ hrun1 hnonempty]
      simp only [Option.some.injEq, List.filter_eq_nil_iff, List.mem_filter]
      rintro f ⟨hf, hf1⟩
      rcases hfs f hf with e | e
      · simp [e] at hf1
      · simp [e]
    have hkm : Controller.matchesSubsys c1.TargetNqn k = true :=
      (matchesSubsys_iff _ _).mpr hks
    have hD2 : (Disconnect K c2 (Disconnect K c1 w).1).1
        = (disconnectByNqn K c1.TargetNqn c2.HostNqn (Disconnect K c1 w).1).1 := by
      rw [Disconnect_world K c2, hA]
    rw [hD2]
    by_cases hret : removedCount (Controller.matchesHost c1.TargetNqn c2.HostNqn) w.ctrls = 0
    · have hnew := newEvents_of_trace (Disconnect K c1 w).1
        (disconnectByNqn K c1.TargetNqn c2.HostNqn (Disconnect K c1 w).1).1
        (requestsFor (Controller.matchesHost c1.TargetNqn c2.HostNqn) w.ctrls
          ++ requestsFor (Controller.matchesSubsys c1.TargetNqn) w.ctrls)
        (by
          rw [byNqn_fallback K c1.TargetNqn c2.HostNqn (Disconnect K c1 w).1 hl2 w.ctrls hsys1
            hp1 hrun2 hret hp2]
          simp [scanned, World.removeAll, World.remove, List.append_assoc])
      rw [hnew]
      apply List.mem_append_right
      exact (mem_requestsFor _ _ _).mpr ⟨k, hk, hkm, rfl⟩
    · have hnew := newEvents_of_trace (Disconnect K c1 w).1
        (disconnectByNqn K c1.TargetNqn c2.HostNqn (Disconnect K c1 w).1).1
        (requestsFor (Controller.matchesHost c1.TargetNqn c2.HostNqn) w.ctrls)
        (by
          rw [byNqn_host_removed K c1.TargetNqn c2.HostNqn (Disconnect K c1 w).1 hl2 w.ctrls
            hsys1 hp1 hrun2 hret]
          simp [scanned, World.removeAll, World.remove])
      rw [hnew]
      rcases hcond with hkh | hnodel
      · exact (mem_requestsFor _ _ _).mpr
          ⟨k, hk, (matchesHost_iff _ _ _).mpr ⟨hks, hkh⟩, rfl⟩
      · exact absurd (removedCount_of_none _ _ hnodel) hret

/-- Witness for the amended C3: one instance of the subsystem on a kernel
without `hostnqn` attribute; the first call requests nothing, the second
deletes the instance in its fallback pass. -/
theorem Disconnect_two_hosts_witness :
    newEvents
        (worldOf [("nqn.a", [b64Encode "nqn.h1", b64Encode "nqn.h2"])]
          [ctrlNoHost "nvme0" "nqn.a"])
        (Disconnect sampleConsts (sampleConnector "nqn.a" "nqn.h1")
          (worldOf [("nqn.a", [b64Encode "nqn.h1", b64Encode "nqn.h2"])]
            [ctrlNoHost "nvme0" "nqn.a"])).1 = []
      ∧ Event.deleteRequest "nvme0"
          ∈ newEvents
              (Disconnect sampleConsts (sampleConnector "nqn.a" "nqn.h1")
                (worldOf [("nqn.a", [b64Encode "nqn.h1", b64Encode "nqn.h2"])]
                  [ctrlNoHost "nvme0" "nqn.a"])).1
              (Disconnect sampleConsts (sampleConnector "nqn.a" "nqn.h2")
                (Disconnect sampleConsts (sampleConnector "nqn.a" "nqn.h1")
                  (worldOf [("nqn.a", [b64Encode "nqn.h1", b64Encode "nqn.h2"])]
                    [ctrlNoHost "nvme0" "nqn.a"])).1).1 :=
  have h := Disconnect_two_hosts sampleConsts (sampleConnector "nqn.a" "nqn.h1")
    (sampleConnector "nqn.a" "nqn.h2")
    (worldOf [("nqn.a", [b64Encode "nqn.h1", b64Encode "nqn.h2"])] [ctrlNoHost "nvme0" "nqn.a"])
    rfl (by decide) (by decide) (by decide) [b64Encode "nqn.h1", b64Encode "nqn.h2"] rfl
    (by decide) (by decide) (ctrlNoHost "nvme0" "nqn.a") (by decide) rfl
  ⟨(h.2.2.2.2.2 (by decide)).1,
    (h.2.2.2.2.2 (by decide)).2.2 (by decide) (Or.inr (by decide))⟩

end Nvmf
